import Mathlib

/-!
Verification of the OSRS-NPC-Scraper crawler against its specification.

The Python source is shallowly embedded: pure helpers become Lean functions
on `String`/`List`; the Redis-backed URL manager, the SQLite page-record
store and the per-page crawl pipeline become explicit state passing over
Lean structures; HTTP, the HTML parser (BeautifulSoup) and the random
number generator are modelled as explicit environment parameters supplied
to the embedded code.
-/

namespace Scraper

/-! ## String primitives shared by the urllib model -/

/-- Characters of `s` up to (excluding) the first occurrence of `c`;
this is Python `s.split(c)[0]` / `s.partition(c)[0]`. -/
def takeUntil (c : Char) (s : String) : String :=
  ⟨s.toList.takeWhile (fun x => x ≠ c)⟩

/-- Valid scheme characters after the first, per urllib `scheme_chars`. -/
def isSchemeChar (c : Char) : Bool :=
  c.isAlphanum || c = '+' || c = '-' || c = '.'

/-- Model of urllib.parse.urlsplit scheme removal: when the text before the
first colon is a well-formed scheme, drop the scheme and the colon. -/
def stripScheme (s : String) : String :=
  let l := s.toList
  let pre := l.takeWhile (fun x => x ≠ ':')
  if pre.length < l.length ∧ pre ≠ [] ∧
      (pre.headD ' ').isAlpha ∧ (pre.drop 1).all isSchemeChar then
    ⟨l.drop (pre.length + 1)⟩
  else s

/-- Model of urllib.parse.urlsplit netloc removal: when the remainder starts
with a double slash, drop it together with everything up to the next
slash, question mark or hash. -/
def stripNetloc (s : String) : String :=
  match s.toList with
  | '/' :: '/' :: rest =>
    ⟨rest.dropWhile (fun c => c ≠ '/' ∧ c ≠ '?' ∧ c ≠ '#')⟩
  | _ => s

/-- Model of urllib.parse `_splitparams` applied to a path: drop a
semicolon suffix of the last slash-separated segment. -/
def splitParams (p : String) : String :=
  let l := p.toList
  if l.contains '/' then
    let segRev := l.reverse.takeWhile (fun c => c ≠ '/')
    let lastSeg := segRev.reverse
    ⟨l.take (l.length - segRev.length) ++ lastSeg.takeWhile (fun c => c ≠ ';')⟩
  else ⟨l.takeWhile (fun c => c ≠ ';')⟩

/-- Model of `urllib.parse.urlparse(url).path`: strip the scheme, the
netloc, the fragment, the query and the path parameters, in the order
urlsplit/urlparse performs the splits. -/
def urlparse_path (url : String) : String :=
  let s := stripScheme url
  let s := stripNetloc s
  let s := takeUntil '#' s
  let s := takeUntil '?' s
  splitParams s

/-- Text after the last slash of `s` (`s` itself when it has no slash);
this is Python `s.split("/")[-1]`. -/
def lastSlashComponent (s : String) : String :=
  ⟨(s.toList.reverse.takeWhile (fun c => c ≠ '/')).reverse⟩

/-- Embedding of `src/utils/helpers.py url_to_filename`: last component of
the parsed path (percent-encoding preserved — the `unquote` call in the
source is commented out), `"unnamed"` when that component is empty, and an
optional dot-extension appended (the Python default argument is `"html"`,
passed here explicitly as `some "html"`). -/
def url_to_filename (url : String) (extension : Option String) : String :=
  let path := urlparse_path url
  let filename := lastSlashComponent path
  let filename := takeUntil '#' filename
  let filename := if filename = "" then "unnamed" else filename
  match extension with
  | none => filename
  | some ext => filename ++ "." ++ ext

/-- Whether a character is an ASCII hex digit. -/
def isHexChar (c : Char) : Bool :=
  ('0' ≤ c && c ≤ '9') || ('a' ≤ c && c ≤ 'f') || ('A' ≤ c && c ≤ 'F')

/-- Numeric value of a hex digit character (0 for non-hex input). -/
def hexVal (c : Char) : Nat :=
  if '0' ≤ c ∧ c ≤ '9' then c.toNat - 48
  else if 'a' ≤ c ∧ c ≤ 'f' then c.toNat - 87
  else if 'A' ≤ c ∧ c ≤ 'F' then c.toNat - 55
  else 0

/-- Decode an ASCII percent-escape list: `%XY` with two hex digits becomes
the character with that code, other text is kept verbatim. Models
`urllib.parse.unquote` on ASCII escapes (multi-byte UTF-8 sequences are out
of scope; no claim depends on them). -/
def percentDecodeList : List Char → List Char
  | [] => []
  | '%' :: h₁ :: h₂ :: rest =>
    if isHexChar h₁ ∧ isHexChar h₂ then
      Char.ofNat (16 * hexVal h₁ + hexVal h₂) :: percentDecodeList rest
    else '%' :: percentDecodeList (h₁ :: h₂ :: rest)
  | c :: rest => c :: percentDecodeList rest

/-- Embedding of `src/utils/helpers.py extract_npc_name_from_url`: last
component of the parsed path with any hash suffix removed, percent-decoded,
underscores replaced by spaces. -/
def extract_npc_name_from_url (url : String) : String :=
  let path := urlparse_path url
  let name := takeUntil '#' (lastSlashComponent path)
  let name : String := ⟨percentDecodeList name.toList⟩
  ⟨name.toList.map (fun c => if c = '_' then ' ' else c)⟩

/-! ## Fetch client (`src/scraper/fetcher.py`)

The network is modelled as a function from the attempt number to the
outcome httpx would deliver on that attempt; `random.randint` is modelled
by an explicit random source `rand` reduced into the requested interval. -/

/-- Outcome the environment delivers for one fetch attempt: the httpx
exception classes distinguished by `fetch_page`, or a successful body. -/
inductive Outcome where
  | success (body : String)
  | httpStatus (code : Nat)
  | timeout
  | requestError (msg : String)
  | unexpected (msg : String)
deriving DecidableEq, Repr

/-- Result of a `fetch_page` call: the body, a raised `FetchError` with its
message, or the `UnboundLocalError` the final `return response` line hits
when the loop body never ran (`retries = 0`). -/
inductive FetchResult where
  | ok (body : String)
  | fetchError (msg : String)
  | unboundLocal
deriving DecidableEq, Repr

/-- Trace of one `fetch_page` call: its result, how many attempts were
started, and the sleep delay paid before each attempt, in order. -/
structure FetchRun where
  result : FetchResult
  attemptsMade : Nat
  delays : List Int
deriving DecidableEq, Repr

/-- Model of `random.randint a b` (inclusive bounds, `a ≤ b`): reduce the
random source value into the interval. -/
def randint (a b : Int) (r : Nat) : Int :=
  a + (r : Int) % (b - a + 1)

/-- The `for attempt in range(1, retries + 1)` loop of `fetch_page`, over
the list of remaining attempt numbers. Each iteration sleeps
`randint(rate_limit - 1, rate_limit + 3)`, then inspects the outcome: a
success returns; an HTTP-status error, a timeout or a request error raise
`FetchError` on the final attempt and otherwise continue; any other
exception raises `FetchError` immediately. -/
def runAttempts (retries : Nat) (rate_limit : Int) (rand : Nat → Nat)
    (outcomes : Nat → Outcome) : List Nat → FetchRun
  | [] => ⟨.unboundLocal, 0, []⟩
  | a :: rest =>
    let d := randint (rate_limit - 1) (rate_limit + 3) (rand a)
    match outcomes a with
    | .success body => ⟨.ok body, a, [d]⟩
    | .httpStatus code =>
      if a = retries then
        ⟨.fetchError ("HTTP error: " ++ toString code), a, [d]⟩
      else
        let r := runAttempts retries rate_limit rand outcomes rest
        ⟨r.result, r.attemptsMade, d :: r.delays⟩
    | .timeout =>
      if a = retries then
        ⟨.fetchError "Request timed out", a, [d]⟩
      else
        let r := runAttempts retries rate_limit rand outcomes rest
        ⟨r.result, r.attemptsMade, d :: r.delays⟩
    | .requestError m =>
      if a = retries then
        ⟨.fetchError ("Request error: " ++ m), a, [d]⟩
      else
        let r := runAttempts retries rate_limit rand outcomes rest
        ⟨r.result, r.attemptsMade, d :: r.delays⟩
    | .unexpected m => ⟨.fetchError ("Unexpected error: " ++ m), a, [d]⟩

/-- Embedding of `URLFetcher.fetch_page`: run the attempt loop on the
attempt numbers 1 through `retries`. -/
def fetch_page (retries : Nat) (rate_limit : Int) (rand : Nat → Nat)
    (outcomes : Nat → Outcome) : FetchRun :=
  runAttempts retries rate_limit rand outcomes (List.range' 1 retries)

/-! ## URL manager (`src/scraper/url_manager.py`)

Redis sets become Lean lists with set-semantics insertion; the Redis hash
used for failed URLs becomes an association list; `spop`, which returns an
arbitrary member, takes an explicit index choice. -/

/-- Entry of the image retry queue (`src/models/scraper_models.py
ImageData`); the JSON serialisation used by Redis is injective, so the
queue is modelled as a set of these records. -/
structure ImageData where
  image_url : String
  npc_name : String
  page_url : String
deriving DecidableEq, Repr

/-- The four Redis keys owned by `URLManager`. -/
structure UMState where
  queue : List String
  visited : List String
  failed : List (String × String)
  image_queue : List ImageData
deriving DecidableEq, Repr

/-- Model of Redis `SADD` with a single member: returns the number of
elements newly added together with the new set. -/
def saddList {α : Type} [DecidableEq α] (l : List α) (x : α) : Nat × List α :=
  if x ∈ l then (0, l) else (1, l ++ [x])

/-- Model of Redis `HSET`: insert or overwrite the binding for a key. -/
def hsetList (l : List (String × String)) (k v : String) :
    List (String × String) :=
  if l.any (fun p => p.1 = k) then
    l.map (fun p => if p.1 = k then (k, v) else p)
  else l ++ [(k, v)]

/-- Embedding of `URLManager.is_visited`. -/
def is_visited (s : UMState) (url : String) : Bool :=
  decide (url ∈ s.visited)

/-- Embedding of `URLManager.add_to_queue`: refuse without mutation when
the URL is visited, otherwise `SADD` it to the queue and report whether it
was newly added. -/
def add_to_queue (s : UMState) (url : String) : Bool × UMState :=
  if is_visited s url then (false, s)
  else
    let r := saddList s.queue url
    (decide (r.1 ≠ 0), { s with queue := r.2 })

/-- The `if new_urls:` block of `add_multiple_to_queue`: `SADD` the
filtered URLs, returning how many were newly added, or 0 for an empty
filter result. -/
def addNewUrls (s : UMState) (new_urls : List String) : Nat × UMState :=
  if new_urls = [] then (0, s)
  else
    new_urls.foldl
      (fun (acc : Nat × UMState) u =>
        let r := saddList acc.2.queue u
        (acc.1 + r.1, { acc.2 with queue := r.2 }))
      (0, s)

/-- Embedding of `URLManager.add_multiple_to_queue`: filter out visited
URLs, then `SADD` the rest, returning the number newly added. -/
def add_multiple_to_queue (s : UMState) (urls : List String) : Nat × UMState :=
  if urls = [] then (0, s)
  else addNewUrls s (urls.filter (fun u => ¬ is_visited s u))

/-- Embedding of `URLManager.get_next_url`: Redis `SPOP` removes and
returns an arbitrary member; the choice is made explicit by an index `n`,
reduced modulo the queue size so every member is reachable. -/
def get_next_url (s : UMState) (n : Nat) : Option String × UMState :=
  match s.queue with
  | [] => (none, s)
  | q =>
    let i := n % q.length
    (some (q.getD i ""), { s with queue := q.eraseIdx i })

/-- Embedding of `URLManager.mark_visited`: `SADD` to the visited set. -/
def mark_visited (s : UMState) (url : String) : UMState :=
  { s with visited := (saddList s.visited url).2 }

/-- Embedding of `URLManager.mark_failed`: `HSET` url to error text. -/
def mark_failed (s : UMState) (url err : String) : UMState :=
  { s with failed := hsetList s.failed url err }

/-- Embedding of `URLManager.add_to_image_queue`: `SADD` the serialised
`ImageData` record to the image retry set. -/
def add_to_image_queue (s : UMState) (image_url npc_name page_url : String) :
    Bool × UMState :=
  let r := saddList s.image_queue ⟨image_url, npc_name, page_url⟩
  (decide (r.1 ≠ 0), { s with image_queue := r.2 })

/-- Embedding of `URLManager.get_next_image_data`: `SPOP` from the image
retry set (validation of entries written by this program always succeeds). -/
def get_next_image_data (s : UMState) (n : Nat) : Option ImageData × UMState :=
  match s.image_queue with
  | [] => (none, s)
  | q =>
    let i := n % q.length
    (q.get? i, { s with image_queue := q.eraseIdx i })

/-- One `URLManager` operation of the non-destructive interface
(`clear_all`, the explicitly gated destructive reset, is modelled
separately and is not part of normal crawl traces). -/
inductive UMOp where
  | addToQueue (url : String)
  | addMultipleToQueue (urls : List String)
  | getNextUrl (n : Nat)
  | markVisited (url : String)
  | markFailed (url err : String)
  | addToImageQueue (image_url npc_name page_url : String)
  | getNextImageData (n : Nat)

/-- Embedding of `URLManager.clear_all`: delete all four keys. -/
def clear_all (_s : UMState) : UMState :=
  ⟨[], [], [], []⟩

/-- Step one `URLManager` operation, recording the URL a `get_next_url`
call returned, if any. -/
def umStep (s : UMState) : UMOp → UMState × Option String
  | .addToQueue u => ((add_to_queue s u).2, none)
  | .addMultipleToQueue us => ((add_multiple_to_queue s us).2, none)
  | .getNextUrl n =>
    let r := get_next_url s n
    (r.2, r.1)
  | .markVisited u => (mark_visited s u, none)
  | .markFailed u e => (mark_failed s u e, none)
  | .addToImageQueue a b c => ((add_to_image_queue s a b c).2, none)
  | .getNextImageData n => ((get_next_image_data s n).2, none)

/-- Run a sequence of `URLManager` operations, collecting the outputs of
every `get_next_url` call along the way. -/
def umRun (s : UMState) : List UMOp → UMState × List (Option String)
  | [] => (s, [])
  | op :: ops =>
    let r := umStep s op
    let rest := umRun r.1 ops
    (rest.1, r.2 :: rest.2)

/-! ## Page record store (`src/storage/sql_crud.py`, `src/models/db_models.py`)

The `crawled_pages` table becomes a list of rows; timestamps become an
explicit clock value passed to each call; nullable columns become
`Option String`; Python truthiness tests on them are modelled exactly
(both `None` and the empty string are falsy). -/

/-- Python truthiness of an optional string. -/
def truthy : Option String → Bool
  | none => false
  | some s => decide (s ≠ "")

/-- Row of the `crawled_pages` table (`CrawledPage`). -/
structure PageRow where
  url : String
  npc_name : String
  content : String
  status : String
  html_file_size : Nat
  has_image : Bool
  image_url : Option String
  image_filename : Option String
  image_status : Option String
  image_size : Nat
  crawled_at : Nat
  updated_at : Nat
deriving DecidableEq, Repr

/-- Arguments of `SQLiteCRUDManager.add_crawled_page`, with the Python
default values. -/
structure PageArgs where
  url : String
  npc_name : String
  html_filename : String
  has_image : Bool := false
  image_url : Option String := none
  image_filename : Option String := none
  image_status : Option String := none
  image_size : Nat := 0
  status : String := "success"
  html_file_size : Nat := 0
deriving DecidableEq, Repr

/-- Update branch of `add_crawled_page`: mutate the existing row in place,
overwriting name, content, status, sizes and `has_image` unconditionally,
the three nullable image columns only when the new value is truthy, and
refresh `updated_at`; `crawled_at` is not touched. -/
def updateRow (now : Nat) (a : PageArgs) (r : PageRow) : PageRow :=
  { r with
    npc_name := a.npc_name
    content := a.html_filename
    status := a.status
    html_file_size := a.html_file_size
    has_image := a.has_image
    image_url := if truthy a.image_url then a.image_url else r.image_url
    image_filename :=
      if truthy a.image_filename then a.image_filename else r.image_filename
    image_status :=
      if truthy a.image_status then a.image_status else r.image_status
    image_size := a.image_size
    updated_at := now }

/-- Insert branch of `add_crawled_page`: build a fresh row; the nullable
image columns are set only when truthy, with `image_status` falling back to
the column default `"no_image"`; both timestamps are set to now. -/
def newRow (now : Nat) (a : PageArgs) : PageRow :=
  { url := a.url
    npc_name := a.npc_name
    content := a.html_filename
    status := a.status
    html_file_size := a.html_file_size
    has_image := a.has_image
    image_url := if truthy a.image_url then a.image_url else none
    image_filename := if truthy a.image_filename then a.image_filename else none
    image_status :=
      if truthy a.image_status then a.image_status else some "no_image"
    image_size := a.image_size
    crawled_at := now
    updated_at := now }

/-- Update the first row whose `url` matches (the `.first()` row of the
query), as the update branch of `add_crawled_page` does. -/
def updateFirstRow (now : Nat) (a : PageArgs) : List PageRow → List PageRow
  | [] => []
  | r :: rest =>
    if r.url = a.url then updateRow now a r :: rest
    else r :: updateFirstRow now a rest

/-- Embedding of `SQLiteCRUDManager.add_crawled_page`: look up an existing
row by URL; update it in place when present, append a fresh row when
absent. -/
def add_crawled_page (now : Nat) (a : PageArgs) (db : List PageRow) :
    List PageRow :=
  if db.any (fun r => r.url = a.url) then updateFirstRow now a db
  else db ++ [newRow now a]

/-! ## List-page parser (`WikiNPCSpider.parse_npc_list_page`)

BeautifulSoup is an external collaborator; the parsed document is modelled
at the interface the parser uses: the `div.mw-category` containers in
document order, each with its `li` items and their first anchor, plus the
anchor whose string is `"next page"`. BeautifulSoup never raises on
malformed input, so a total function on this structure is the faithful
embedding of the never-raising parse. -/

/-- An anchor tag as the parser sees it: its `href` attribute, if any. -/
structure Anchor where
  href : Option String
deriving DecidableEq, Repr

/-- A `li` item: its first contained anchor, if any (`li.find("a")`). -/
structure ListItem where
  anchor : Option Anchor
deriving DecidableEq, Repr

/-- A `div.mw-category` container with its `li` items. -/
structure CategoryDiv where
  items : List ListItem
deriving DecidableEq, Repr

/-- Parsed list-page document: the category containers in document order
and the `"next page"` anchor, if present. -/
structure ListSoup where
  categoryDivs : List CategoryDiv
  nextPageAnchor : Option Anchor
deriving DecidableEq, Repr

/-- Scheme-likeness test used by the urljoin model. -/
def hasScheme (s : String) : Bool :=
  decide (stripScheme s ≠ s)

/-- Whether a string starts with two slashes. -/
def startsSlashSlash (s : String) : Bool :=
  match s.toList with
  | '/' :: '/' :: _ => true
  | _ => false

/-- Whether a string starts with a slash. -/
def startsSlash (s : String) : Bool :=
  match s.toList with
  | '/' :: _ => true
  | _ => false

/-- Scheme and netloc prefix of an absolute base URL. -/
def schemeNetlocOf (base : String) : String :=
  let rest := stripScheme base
  let sch := if hasScheme base then takeUntil ':' base ++ ":" else ""
  match rest.toList with
  | '/' :: '/' :: l =>
    sch ++ "//" ++ ⟨l.takeWhile (fun c => c ≠ '/' ∧ c ≠ '?' ∧ c ≠ '#')⟩
  | _ => sch

/-- Directory part (up to and including the last slash) of the base URL's
path, `"/"` when the path has no slash. -/
def basePathDir (base : String) : String :=
  let rest := stripNetloc (stripScheme base)
  let p := takeUntil '?' (takeUntil '#' rest)
  let l := p.toList
  if l.contains '/' then ⟨(l.reverse.dropWhile (fun c => c ≠ '/')).reverse⟩
  else "/"

/-- Model of `urllib.parse.urljoin` for the URL shapes the crawler
resolves: absolute URLs pass through, protocol-relative and root-relative
references are resolved against the base's scheme and netloc, and other
references replace the last segment of the base path. -/
def urljoin (base url : String) : String :=
  if url = "" then base
  else if hasScheme url then url
  else if startsSlashSlash url then
    (if hasScheme base then takeUntil ':' base ++ ":" else "") ++ url
  else if startsSlash url then schemeNetlocOf base ++ url
  else schemeNetlocOf base ++ basePathDir base ++ url

/-- Result of parsing one list page (`CrawlNPCListPageResult`). -/
structure CrawlNPCListPageResult where
  npc_urls : List String
  next_page_url : Option String
deriving DecidableEq, Repr

/-- Link extracted from one `li` item: requires a found anchor with a
truthy `href` (`if link and link.get("href")`), resolved against the base
URL. -/
def liLink (base : String) (li : ListItem) : Option String :=
  match li.anchor with
  | none => none
  | some a =>
    match a.href with
    | none => none
    | some h => if h = "" then none else some (urljoin base h)

/-- Embedding of `WikiNPCSpider.parse_npc_list_page`: with no category
container, return empty links and no next page (before the next-page
anchor is even consulted); otherwise read the links from the second
container when there are at least two, else from the only one, and resolve
the `"next page"` anchor's truthy href against the base URL. -/
def parse_npc_list_page (base : String) (soup : ListSoup) :
    CrawlNPCListPageResult :=
  match soup.categoryDivs with
  | [] => ⟨[], none⟩
  | d₀ :: rest =>
    let content_div := match rest with
      | [] => d₀
      | d₁ :: _ => d₁
    let npc_links := content_div.items.filterMap (liLink base)
    let next_page_url :=
      match soup.nextPageAnchor with
      | none => none
      | some a =>
        match a.href with
        | none => none
        | some h => if h = "" then none else some (urljoin base h)
    ⟨npc_links, next_page_url⟩

/-! ## Per-page crawl pipeline (`WikiNPCSpider.crawl_npc_page`)

The pipeline's external effects are supplied by an environment: the fetch
outcome (a body, a raised `FetchError`, or any other exception), the HTML
save outcome, the file sizes the filesystem reports, the image extraction
result and the image download result. Exceptions raised inside the `try`
block dispatch to the `except FetchError` branch or the generic `except
Exception` branch exactly as in the source. -/

/-- An exception escaping a pipeline step: a `FetchError` with its message,
or any other exception with its text. -/
inductive Exn where
  | fetchError (msg : String)
  | other (msg : String)
deriving DecidableEq, Repr

/-- Environment of one `crawl_npc_page` call. -/
structure PageEnv where
  fetchResult : Except Exn String
  saveResult : Except Exn String
  htmlFileSize : Nat
  extract_found : Bool
  extract_image_url : Option String
  downloadSuccess : Bool
  downloadImagePath : Option String
  imageFileSize : Nat
  now : Nat

/-- Result of one `crawl_npc_page` call (`CrawlNPCResult`), with the
pydantic default values. -/
structure CrawlNPCResult where
  html_success : Bool := false
  image_success : Bool := false
  error_message : Option String := none
deriving DecidableEq, Repr

/-- Durable state the spider touches: the URL manager's Redis keys and the
page-record table. -/
structure SpiderState where
  um : UMState
  db : List PageRow
deriving Repr

/-- The `except FetchError` branch of `crawl_npc_page`: persist a failed
record of size 0 (image arguments left at their defaults), mark the URL
failed with the error text, and report an unsuccessful crawl. -/
def fetchErrorBranch (npc_url npc_name filename m : String) (now : Nat)
    (s : SpiderState) : CrawlNPCResult × SpiderState :=
  let db := add_crawled_page now
    { url := npc_url, npc_name := npc_name, html_filename := filename,
      status := "failed", html_file_size := 0 } s.db
  (⟨false, false, some m⟩, ⟨mark_failed s.um npc_url m, db⟩)

/-- The generic `except Exception` branch of `crawl_npc_page`: mark the URL
failed with the exception text; no page record is written. -/
def genericExnBranch (npc_url m : String) (s : SpiderState) :
    CrawlNPCResult × SpiderState :=
  (⟨false, false, some m⟩, ⟨mark_failed s.um npc_url m, s.db⟩)

/-- Dispatch an exception raised inside the `try` block of
`crawl_npc_page` to its handler. -/
def handleExn (npc_url npc_name filename : String) (now : Nat) (e : Exn)
    (s : SpiderState) : CrawlNPCResult × SpiderState :=
  match e with
  | .fetchError m => fetchErrorBranch npc_url npc_name filename m now s
  | .other m => genericExnBranch npc_url m s

/-- Embedding of `WikiNPCSpider.crawl_npc_page`: fetch the page, save the
HTML, extract and (when found) download the image — pushing a retry-queue
entry on download failure — then upsert the page record with status
`"success"` and mark the URL visited; exceptions raised by the fetch or
the save dispatch to the two handlers. -/
def crawl_npc_page (npc_url : String) (env : PageEnv) (s : SpiderState) :
    CrawlNPCResult × SpiderState :=
  let npc_name := extract_npc_name_from_url npc_url
  let filename := url_to_filename npc_url (some "html")
  match env.fetchResult with
  | .error e => handleExn npc_url npc_name filename env.now e s
  | .ok _ =>
    match env.saveResult with
    | .error e => handleExn npc_url npc_name filename env.now e s
    | .ok filepath =>
      let image_url := env.extract_image_url
      let img :
          Bool × Option String × Option Nat × String × UMState :=
        if env.extract_found && truthy image_url then
          if env.downloadSuccess && truthy env.downloadImagePath then
            (true, some (url_to_filename (image_url.getD "") none),
              some env.imageFileSize, "success", s.um)
          else
            (false, none, none, "found",
              (add_to_image_queue s.um (image_url.getD "") npc_name
                npc_url).2)
        else (false, none, none, "not_found", s.um)
      let has_image := img.1
      let image_filename := img.2.1
      let image_size_bytes := img.2.2.1
      let image_status := img.2.2.2.1
      let um := img.2.2.2.2
      let db := add_crawled_page env.now
        { url := npc_url, npc_name := npc_name, html_filename := filepath,
          status := "success", html_file_size := env.htmlFileSize,
          image_url := image_url, image_filename := image_filename,
          image_status := some image_status,
          image_size := match image_size_bytes with
            | none => 0
            | some b => b,
          has_image := has_image } s.db
      let um := mark_visited um npc_url
      (⟨true, has_image, none⟩, ⟨um, db⟩)

/-! ## Crawl loop (`WikiNPCSpider.crawl_all_npcs`) -/

/-- Aggregate counters returned by `crawl_all_npcs`
(`CrawlAllNPCsResult`). -/
structure CrawlAllNPCsResult where
  total_npcs_crawled : Nat
  total_successful : Nat
  total_failed : Nat
  total_images_downloaded : Nat
  total_image_failures : Nat
deriving DecidableEq, Repr

/-- The `if max_npcs and total_npcs_crawled >= max_npcs` guard, with
Python truthiness on `max_npcs` (`None` and `0` disable the cap). -/
def maxReached : Option Nat → Nat → Bool
  | none, _ => false
  | some m, t => if m = 0 then false else decide (m ≤ t)

/-- The `while True` loop of `crawl_all_npcs`. Fuel bounds the iteration
count; `crawl_all_npcs` supplies the queue length, which the loop can
never exceed since each iteration pops one URL and no step of
`crawl_npc_page` re-enqueues. Each iteration checks the cap, pops an
arbitrary queue member (choice `picks fuel`), runs the per-page pipeline
and updates exactly one counter of each of the two success/failure
pairs. -/
def crawlLoop (envOf : String → PageEnv) (picks : Nat → Nat)
    (max_npcs : Option Nat) :
    Nat → CrawlAllNPCsResult → SpiderState → CrawlAllNPCsResult × SpiderState
  | 0, acc, s => (acc, s)
  | fuel + 1, acc, s =>
    if maxReached max_npcs acc.total_npcs_crawled then (acc, s)
    else
      match get_next_url s.um (picks fuel) with
      | (none, _) => (acc, s)
      | (some url, um') =>
        let r := crawl_npc_page url (envOf url) ⟨um', s.db⟩
        let acc' : CrawlAllNPCsResult :=
          { total_npcs_crawled := acc.total_npcs_crawled + 1
            total_successful :=
              acc.total_successful + (if r.1.html_success then 1 else 0)
            total_failed :=
              acc.total_failed + (if r.1.html_success then 0 else 1)
            total_images_downloaded :=
              acc.total_images_downloaded +
                (if r.1.image_success then 1 else 0)
            total_image_failures :=
              acc.total_image_failures +
                (if r.1.image_success then 0 else 1) }
        crawlLoop envOf picks max_npcs fuel acc' r.2

/-- Embedding of `WikiNPCSpider.crawl_all_npcs`: drain the queue with the
loop, starting from zeroed counters. -/
def crawl_all_npcs (envOf : String → PageEnv) (picks : Nat → Nat)
    (max_npcs : Option Nat) (s : SpiderState) :
    CrawlAllNPCsResult × SpiderState :=
  crawlLoop envOf picks max_npcs s.um.queue.length ⟨0, 0, 0, 0, 0⟩ s

/-! ## Specification-side definitions and predicates used by the claims -/

/-- The filename the specification describes, written from the spec's
words for the refinement comparison with `url_to_filename`: the last
component of the URL's parsed path (percent-encoding preserved, query and
fragment stripped), with `"unnamed"` substituted for an empty component
and the optional dot-extension appended. -/
def specLastPathComponent (url : String) : String :=
  lastSlashComponent (urlparse_path url)

/-- Spec-side counterpart of `url_to_filename` built on
`specLastPathComponent`. -/
def spec_filename (url : String) (extension : Option String) : String :=
  let f := specLastPathComponent url
  let f := if f = "" then "unnamed" else f
  match extension with
  | none => f
  | some e => f ++ "." ++ e

/-- Whether an attempt outcome is one of the three retried network
failures (non-2xx HTTP status, timeout, generic transport error). -/
def networkFailure : Outcome → Bool
  | .httpStatus _ => true
  | .timeout => true
  | .requestError _ => true
  | .success _ => false
  | .unexpected _ => false

/-- The cause string `fetch_page` wraps into `FetchError` for a failing
outcome (empty for a success, which never produces a `FetchError`). -/
def failureCause : Outcome → String
  | .httpStatus code => "HTTP error: " ++ toString code
  | .timeout => "Request timed out"
  | .requestError m => "Request error: " ++ m
  | .success _ => ""
  | .unexpected m => "Unexpected error: " ++ m

/-- Value bound to a key in the failed-URL hash, if any. -/
def failedLookup (l : List (String × String)) (k : String) : Option String :=
  (l.find? (fun p => p.1 = k)).map (fun p => p.2)

/-- The page-record table holds at most one row per URL. -/
def uniqueUrls (db : List PageRow) : Prop :=
  (db.map PageRow.url).Nodup

/-- The spec's PageRecord invariant: `has_image` implies a successful
image status and a non-null image reference. -/
def rowImageInv (r : PageRow) : Prop :=
  r.has_image = true → r.image_status = some "success" ∧ r.image_filename ≠ none

/-! ## Helper lemmas on the string primitives -/

theorem mem_takeUntil_ne {c : Char} {s : String} {x : Char}
    (h : x ∈ (takeUntil c s).toList) : x ≠ c := by
  have hmem : x ∈ s.toList.takeWhile (fun y => y ≠ c) := h
  have hp := List.mem_takeWhile_imp hmem
  simpa using hp

theorem mem_takeUntil_mem {c : Char} {s : String} {x : Char}
    (h : x ∈ (takeUntil c s).toList) : x ∈ s.toList :=
  (List.takeWhile_sublist _).subset h

theorem mem_splitParams_mem {p : String} {x : Char}
    (h : x ∈ (splitParams p).toList) : x ∈ p.toList := by
  unfold splitParams at h
  by_cases hc : p.toList.contains '/'
  · simp only [hc, if_pos] at h
    rcases List.mem_append.mp h with h₁ | h₂
    · exact List.mem_of_mem_take h₁
    · have h₃ : x ∈ (p.toList.reverse.takeWhile (fun c => c ≠ '/')).reverse :=
        (List.takeWhile_sublist _).subset h₂
      have h₄ : x ∈ p.toList.reverse.takeWhile (fun c => c ≠ '/') :=
        List.mem_reverse.mp h₃
      have h₅ : x ∈ p.toList.reverse := (List.takeWhile_sublist _).subset h₄
      exact List.mem_reverse.mp h₅
  · simp only [hc, if_neg, Bool.false_eq_true, not_false_eq_true] at h
    exact (List.takeWhile_sublist _).subset h

theorem mem_lastSlashComponent_mem {s : String} {x : Char}
    (h : x ∈ (lastSlashComponent s).toList) : x ∈ s.toList := by
  unfold lastSlashComponent at h
  have h₁ : x ∈ s.toList.reverse.takeWhile (fun c => c ≠ '/') :=
    List.mem_reverse.mp h
  exact List.mem_reverse.mp ((List.takeWhile_sublist _).subset h₁)

theorem takeUntil_eq_self {c : Char} {s : String}
    (h : ∀ x ∈ s.toList, x ≠ c) : takeUntil c s = s := by
  unfold takeUntil
  have h₁ : s.toList.takeWhile (fun x => x ≠ c) = s.toList :=
    List.takeWhile_eq_self_iff.mpr (by simpa using h)
  rw [h₁]
  rfl

theorem urlparse_path_ne_hash {url : String} {x : Char}
    (h : x ∈ (urlparse_path url).toList) : x ≠ '#' := by
  unfold urlparse_path at h
  exact mem_takeUntil_ne (mem_takeUntil_mem (mem_splitParams_mem h))

/-! ## C7 — url_to_filename -/

/-- C7 counterexample: the claim says `url_to_filename` returns the last
path component for every URL, but for a URL whose path ends in a slash the
last path component is empty and the function returns `"unnamed.html"`,
not `"" ++ ".html"`. -/
theorem C7_claim_counterexample :
    url_to_filename "https://oldschool.runescape.wiki/w/" (some "html") =
      "unnamed.html" ∧
    specLastPathComponent "https://oldschool.runescape.wiki/w/" = "" ∧
    ("unnamed.html" : String) ≠ "" ++ ".html" :=
  ⟨by decide, by decide, by decide⟩

/-- C7 (amended): `url_to_filename` is deterministic; for every URL it
returns the last path component with percent-encoding preserved and
query/fragment stripped, substituting `"unnamed"` when that component is
empty, appending `".html"` by default and no suffix when the extension is
`None`; in particular a URL ending in `/w/50%25_Luke` maps to
`50%25_Luke.html` and, with no extension, a URL ending in
`/images/50%25_Luke.png` maps to `50%25_Luke.png`. -/
theorem C7_url_to_filename :
    (∀ url ext, url_to_filename url ext = spec_filename url ext) ∧
    url_to_filename "https://oldschool.runescape.wiki/w/50%25_Luke"
      (some "html") = "50%25_Luke.html" ∧
    url_to_filename "https://oldschool.runescape.wiki/images/50%25_Luke.png"
      none = "50%25_Luke.png" := by
  refine ⟨fun url ext => ?_, by decide, by decide⟩
  have h : takeUntil '#' (lastSlashComponent (urlparse_path url)) =
      lastSlashComponent (urlparse_path url) :=
    takeUntil_eq_self
      (fun x hx => urlparse_path_ne_hash (mem_lastSlashComponent_mem hx))
  simp only [url_to_filename, spec_filename, specLastPathComponent, h]

/-! ## C1 — frontier exclusivity -/

theorem saddList_mem_self {α : Type} [DecidableEq α] (l : List α) (x : α) :
    x ∈ (saddList l x).2 := by
  unfold saddList
  by_cases h : x ∈ l
  · simp [h]
  · simp [h]

theorem mem_saddList {α : Type} [DecidableEq α] {l : List α} {x y : α}
    (h : y ∈ (saddList l x).2) : y ∈ l ∨ y = x := by
  unfold saddList at h
  by_cases hx : x ∈ l
  · simp only [hx, if_pos] at h
    exact Or.inl h
  · simp only [hx, if_neg, not_false_eq_true, List.mem_append,
      List.mem_singleton] at h
    simpa using h

theorem saddList_superset {α : Type} [DecidableEq α] {l : List α} {x y : α}
    (h : y ∈ l) : y ∈ (saddList l x).2 := by
  unfold saddList
  by_cases hx : x ∈ l
  · simpa [hx]
  · simp [hx, List.mem_append, h]

theorem add_to_queue_visited {s : UMState} {u : String}
    (h : u ∈ s.visited) : add_to_queue s u = (false, s) := by
  simp [add_to_queue, is_visited, h]

theorem add_to_queue_pending {s : UMState} {u : String}
    (h₁ : u ∉ s.visited) (h₂ : u ∈ s.queue) :
    add_to_queue s u = (false, s) := by
  simp [add_to_queue, is_visited, h₁, saddList, h₂]

theorem foldl_sadd_inv (u : String) :
    ∀ (l : List String) (acc : Nat × UMState), u ∉ acc.2.queue →
      (∀ v ∈ l, v ≠ u) →
      ((l.foldl (fun (acc : Nat × UMState) u' =>
          let r := saddList acc.2.queue u'
          (acc.1 + r.1, { acc.2 with queue := r.2 })) acc).2.visited =
        acc.2.visited ∧
      u ∉ (l.foldl (fun (acc : Nat × UMState) u' =>
          let r := saddList acc.2.queue u'
          (acc.1 + r.1, { acc.2 with queue := r.2 })) acc).2.queue) := by
  intro l
  induction l with
  | nil => intro acc hq _; exact ⟨rfl, hq⟩
  | cons v t ih =>
    intro acc hq hvs
    have hvu : v ≠ u := hvs v (List.mem_cons_self v t)
    have hq' : u ∉ (saddList acc.2.queue v).2 := by
      intro hmem
      rcases mem_saddList hmem with h | h
      · exact hq h
      · exact hvu h.symm
    have := ih (acc.1 + (saddList acc.2.queue v).1,
      { acc.2 with queue := (saddList acc.2.queue v).2 }) hq'
      (fun w hw => hvs w (List.mem_cons_of_mem v hw))
    simpa using this

theorem add_multiple_preserves {s : UMState} {u : String} {urls : List String}
    (hv : u ∈ s.visited) (hq : u ∉ s.queue) :
    (add_multiple_to_queue s urls).2.visited = s.visited ∧
    u ∉ (add_multiple_to_queue s urls).2.queue := by
  unfold add_multiple_to_queue
  by_cases h0 : urls = []
  · simp [h0, hq]
  · rw [if_neg h0]
    unfold addNewUrls
    split
    · exact ⟨rfl, hq⟩
    · apply foldl_sadd_inv u _ (0, s) hq
      intro v hvmem hvu
      have hfil := List.mem_filter.mp hvmem
      have hvis : is_visited s v = true := by
        rw [hvu]; simp [is_visited, hv]
      simp [hvis] at hfil

theorem umStep_preserves {s : UMState} {u : String} (op : UMOp)
    (hv : u ∈ s.visited) (hq : u ∉ s.queue) :
    u ∈ (umStep s op).1.visited ∧ u ∉ (umStep s op).1.queue ∧
    (umStep s op).2 ≠ some u := by
  cases op with
  | addToQueue v =>
    by_cases hvv : is_visited s v
    · simp [umStep, add_to_queue, hvv, hv, hq]
    · have hne : v ≠ u := by
        intro h
        subst h
        simp [is_visited, hv] at hvv
      refine ⟨by simpa [umStep, add_to_queue, hvv] using hv, ?_, by
        simp [umStep]⟩
      simp only [umStep, add_to_queue, hvv, Bool.false_eq_true, if_neg,
        not_false_eq_true]
      intro hmem
      rcases mem_saddList hmem with h | h
      · exact hq h
      · exact hne h.symm
  | addMultipleToQueue urls =>
    have h := @add_multiple_preserves s u urls hv hq
    exact ⟨by simpa [umStep, h.1] using hv, by simpa [umStep] using h.2, by
      simp [umStep]⟩
  | getNextUrl n =>
    cases hQ : s.queue with
    | nil =>
      have hstate : umStep s (UMOp.getNextUrl n) = (s, none) := by
        simp [umStep, get_next_url, hQ]
      rw [hstate]
      exact ⟨hv, hq, by simp⟩
    | cons a t =>
      have hlen : n % (a :: t).length < (a :: t).length :=
        Nat.mod_lt n (by simp)
      have hget : (a :: t).getD (n % (a :: t).length) "" ∈ a :: t := by
        rw [List.getD_eq_getElem _ _ hlen]
        exact List.getElem_mem hlen
      have hqQ : u ∉ a :: t := by rw [← hQ]; exact hq
      refine ⟨?_, ?_, ?_⟩
      · simpa [umStep, get_next_url, hQ] using hv
      · simp only [umStep, get_next_url, hQ]
        intro hmem
        exact hqQ ((List.eraseIdx_sublist _ _).subset hmem)
      · simp only [umStep, get_next_url, hQ]
        intro hEq
        have : (a :: t).getD (n % (a :: t).length) "" = u := by
          simpa using hEq
        exact hqQ (this ▸ hget)
  | markVisited v =>
    exact ⟨saddList_superset hv, by simpa [umStep, mark_visited] using hq, by
      simp [umStep]⟩
  | markFailed v e =>
    exact ⟨by simpa [umStep, mark_failed] using hv,
      by simpa [umStep, mark_failed] using hq, by simp [umStep]⟩
  | addToImageQueue a b c =>
    exact ⟨by simpa [umStep, add_to_image_queue] using hv,
      by simpa [umStep, add_to_image_queue] using hq, by simp [umStep]⟩
  | getNextImageData n =>
    cases hQ : s.image_queue with
    | nil =>
      exact ⟨by simpa [umStep, get_next_image_data, hQ] using hv,
        by simpa [umStep, get_next_image_data, hQ] using hq, by
          simp [umStep, get_next_image_data, hQ]⟩
    | cons a t =>
      exact ⟨by simpa [umStep, get_next_image_data, hQ] using hv,
        by simpa [umStep, get_next_image_data, hQ] using hq, by
          simp [umStep, get_next_image_data, hQ]⟩

theorem umRun_preserves {u : String} :
    ∀ (ops : List UMOp) (s : UMState), u ∈ s.visited → u ∉ s.queue →
      u ∈ (umRun s ops).1.visited ∧ u ∉ (umRun s ops).1.queue ∧
      ∀ o ∈ (umRun s ops).2, o ≠ some u := by
  intro ops
  induction ops with
  | nil => intro s hv hq; exact ⟨hv, hq, by simp [umRun]⟩
  | cons op t ih =>
    intro s hv hq
    have hstep := umStep_preserves op hv hq
    have hrest := ih (umStep s op).1 hstep.1 hstep.2.1
    refine ⟨by simpa [umRun] using hrest.1, by simpa [umRun] using hrest.2.1, ?_⟩
    intro o ho
    simp only [umRun, List.mem_cons] at ho
    rcases ho with h | h
    · exact h ▸ hstep.2.2
    · exact hrest.2.2 o h

/-- C1: once a URL is in the visited set, `add_to_queue` returns false
without any mutation; enqueueing a URL that is already pending but not
visited is also a no-op returning false; and from any state in which the
URL is visited and no longer pending (as it is after `get_next_url`
returned it and `mark_visited` completed), no sequence of URL-manager
operations can make `get_next_url` return it again. -/
theorem C1_frontier_exclusivity :
    (∀ s u, u ∈ s.visited → add_to_queue s u = (false, s)) ∧
    (∀ s u, u ∉ s.visited → u ∈ s.queue → add_to_queue s u = (false, s)) ∧
    (∀ s u (ops : List UMOp), u ∈ s.visited → u ∉ s.queue →
      u ∈ (umRun s ops).1.visited ∧ u ∉ (umRun s ops).1.queue ∧
      ∀ o ∈ (umRun s ops).2, o ≠ some u) :=
  ⟨fun _ _ h => add_to_queue_visited h,
   fun _ _ h₁ h₂ => add_to_queue_pending h₁ h₂,
   fun _ _ ops hv hq => umRun_preserves ops _ hv hq⟩

/-- C1 witness: concrete instances of the three parts, with the visited
URL `"u"` refused by the queue, the pending URL `"p"` re-added as a no-op,
and a trace over a state holding `"u"` as visited and `"a"` as pending. -/
theorem C1_frontier_exclusivity_witness :
    add_to_queue ⟨[], ["u"], [], []⟩ "u" = (false, ⟨[], ["u"], [], []⟩) ∧
    add_to_queue ⟨["p"], [], [], []⟩ "p" = (false, ⟨["p"], [], [], []⟩) ∧
    ("u" ∈ (umRun ⟨["a"], ["u"], [], []⟩
        [.addToQueue "u", .getNextUrl 0, .markVisited "a"]).1.visited ∧
      "u" ∉ (umRun ⟨["a"], ["u"], [], []⟩
        [.addToQueue "u", .getNextUrl 0, .markVisited "a"]).1.queue ∧
      ∀ o ∈ (umRun ⟨["a"], ["u"], [], []⟩
        [.addToQueue "u", .getNextUrl 0, .markVisited "a"]).2,
        o ≠ some "u") :=
  ⟨C1_frontier_exclusivity.1 ⟨[], ["u"], [], []⟩ "u" (by decide),
   C1_frontier_exclusivity.2.1 ⟨["p"], [], [], []⟩ "p" (by decide) (by decide),
   C1_frontier_exclusivity.2.2 ⟨["a"], ["u"], [], []⟩ "u"
     [.addToQueue "u", .getNextUrl 0, .markVisited "a"]
     (by decide) (by decide)⟩

/-! ## C2 and C9 — fetch retry exhaustion and the sleep window -/

theorem randint_bounds (a b : Int) (r : Nat) (h : a ≤ b) :
    a ≤ randint a b r ∧ randint a b r ≤ b := by
  unfold randint
  have hpos : (0 : Int) < b - a + 1 := by omega
  have h₁ : 0 ≤ (r : Int) % (b - a + 1) := Int.emod_nonneg _ (by omega)
  have h₂ : (r : Int) % (b - a + 1) < b - a + 1 := Int.emod_lt_of_pos _ hpos
  omega

theorem failureCause_ne_empty {o : Outcome} (h : networkFailure o = true) :
    failureCause o ≠ "" := by
  cases o with
  | success body => simp [networkFailure] at h
  | unexpected m => simp [networkFailure] at h
  | timeout => simp [failureCause]
  | httpStatus code =>
    intro hEq
    simp only [failureCause] at hEq
    have hlen := congrArg String.length hEq
    rw [String.length_append] at hlen
    have h12 : ("HTTP error: " : String).length = 12 := rfl
    have h0 : ("" : String).length = 0 := rfl
    omega
  | requestError m =>
    intro hEq
    simp only [failureCause] at hEq
    have hlen := congrArg String.length hEq
    rw [String.length_append] at hlen
    have h15 : ("Request error: " : String).length = 15 := rfl
    have h0 : ("" : String).length = 0 := rfl
    omega

theorem runAttempts_network (rl : Int) (rand : Nat → Nat)
    (outcomes : Nat → Outcome) (retries : Nat) :
    ∀ (k a : Nat), a + k = retries + 1 → 1 ≤ a → a ≤ retries →
      (∀ i, a ≤ i → i ≤ retries → networkFailure (outcomes i) = true) →
      (runAttempts retries rl rand outcomes (List.range' a k)).result =
        .fetchError (failureCause (outcomes retries)) ∧
      (runAttempts retries rl rand outcomes
        (List.range' a k)).attemptsMade = retries := by
  intro k
  induction k with
  | zero => intro a hak _ ha _; omega
  | succ k ih =>
    intro a hak h1 ha hnet
    rw [List.range'_succ a k 1]
    have hnet_a : networkFailure (outcomes a) = true := hnet a le_rfl ha
    cases hOut : outcomes a with
    | success body => rw [hOut] at hnet_a; simp [networkFailure] at hnet_a
    | unexpected m => rw [hOut] at hnet_a; simp [networkFailure] at hnet_a
    | httpStatus code =>
      by_cases hlast : a = retries
      · have hk : k = 0 := by omega
        subst hlast hk
        simp [runAttempts, hOut, failureCause]
      · have hrec := ih (a + 1) (by omega) (by omega) (by omega)
          (fun i hi₁ hi₂ => hnet i (by omega) hi₂)
        simp [runAttempts, hOut, hlast, hrec.1, hrec.2]
    | timeout =>
      by_cases hlast : a = retries
      · have hk : k = 0 := by omega
        subst hlast hk
        simp [runAttempts, hOut, failureCause]
      · have hrec := ih (a + 1) (by omega) (by omega) (by omega)
          (fun i hi₁ hi₂ => hnet i (by omega) hi₂)
        simp [runAttempts, hOut, hlast, hrec.1, hrec.2]
    | requestError m =>
      by_cases hlast : a = retries
      · have hk : k = 0 := by omega
        subst hlast hk
        simp [runAttempts, hOut, failureCause]
      · have hrec := ih (a + 1) (by omega) (by omega) (by omega)
          (fun i hi₁ hi₂ => hnet i (by omega) hi₂)
        simp [runAttempts, hOut, hlast, hrec.1, hrec.2]

theorem runAttempts_unexpected (rl : Int) (rand : Nat → Nat)
    (outcomes : Nat → Outcome) (retries : Nat) (ku : Nat) (m : String) :
    ∀ (k a : Nat), a + k = retries + 1 → 1 ≤ a → a ≤ ku → ku ≤ retries →
      (∀ i, a ≤ i → i < ku → networkFailure (outcomes i) = true) →
      outcomes ku = .unexpected m →
      (runAttempts retries rl rand outcomes (List.range' a k)).result =
        .fetchError ("Unexpected error: " ++ m) ∧
      (runAttempts retries rl rand outcomes
        (List.range' a k)).attemptsMade = ku := by
  intro k
  induction k with
  | zero => intro a hak _ haku hku _ _; omega
  | succ k ih =>
    intro a hak h1 haku hku hnet hu
    rw [List.range'_succ a k 1]
    by_cases hEq : a = ku
    · subst hEq
      simp [runAttempts, hu]
    · have halt : a < ku := lt_of_le_of_ne haku hEq
      have hnet_a : networkFailure (outcomes a) = true := hnet a le_rfl halt
      have hlast : ¬ a = retries := by omega
      have hrec := ih (a + 1) (by omega) (by omega) (by omega) hku
        (fun i hi₁ hi₂ => hnet i (by omega) hi₂) hu
      cases hOut : outcomes a with
      | success body => rw [hOut] at hnet_a; simp [networkFailure] at hnet_a
      | unexpected m' => rw [hOut] at hnet_a; simp [networkFailure] at hnet_a
      | httpStatus code => simp [runAttempts, hOut, hlast, hrec.1, hrec.2]
      | timeout => simp [runAttempts, hOut, hlast, hrec.1, hrec.2]
      | requestError m' => simp [runAttempts, hOut, hlast, hrec.1, hrec.2]

theorem runAttempts_delay_bounds (retries : Nat) (rl : Int) (rand : Nat → Nat)
    (outcomes : Nat → Outcome) :
    ∀ (l : List Nat) (d : Int),
      d ∈ (runAttempts retries rl rand outcomes l).delays →
      rl - 1 ≤ d ∧ d ≤ rl + 3 := by
  intro l
  induction l with
  | nil => intro d hd; simp [runAttempts] at hd
  | cons a t ih =>
    intro d hd
    have hbound := randint_bounds (rl - 1) (rl + 3) (rand a) (by omega)
    cases hOut : outcomes a with
    | success body =>
      simp [runAttempts, hOut] at hd
      exact hd ▸ hbound
    | unexpected m =>
      simp [runAttempts, hOut] at hd
      exact hd ▸ hbound
    | httpStatus code =>
      by_cases hlast : a = retries
      · subst hlast
        simp [runAttempts, hOut] at hd
        exact hd ▸ hbound
      · simp only [runAttempts, hOut, hlast, if_neg, not_false_eq_true,
          List.mem_cons] at hd
        rcases hd with h | h
        · exact h ▸ hbound
        · exact ih d h
    | timeout =>
      by_cases hlast : a = retries
      · subst hlast
        simp [runAttempts, hOut] at hd
        exact hd ▸ hbound
      · simp only [runAttempts, hOut, hlast, if_neg, not_false_eq_true,
          List.mem_cons] at hd
        rcases hd with h | h
        · exact h ▸ hbound
        · exact ih d h
    | requestError m =>
      by_cases hlast : a = retries
      · subst hlast
        simp [runAttempts, hOut] at hd
        exact hd ▸ hbound
      · simp only [runAttempts, hOut, hlast, if_neg, not_false_eq_true,
          List.mem_cons] at hd
        rcases hd with h | h
        · exact h ▸ hbound
        · exact ih d h

theorem runAttempts_delay_count (rl : Int) (rand : Nat → Nat)
    (outcomes : Nat → Outcome) (retries : Nat) :
    ∀ (k a : Nat), a + k = retries + 1 → 1 ≤ a → a ≤ retries →
      (runAttempts retries rl rand outcomes (List.range' a k)).attemptsMade
          + 1 =
        a + (runAttempts retries rl rand outcomes
          (List.range' a k)).delays.length := by
  intro k
  induction k with
  | zero => intro a hak _ ha; omega
  | succ k ih =>
    intro a hak h1 ha
    rw [List.range'_succ a k 1]
    by_cases hlast : a = retries
    · subst hlast
      cases hOut : outcomes a <;> simp [runAttempts, hOut]
    · have hrec := ih (a + 1) (by omega) (by omega) (by omega)
      cases hOut : outcomes a with
      | success body => simp [runAttempts, hOut]
      | unexpected m => simp [runAttempts, hOut]
      | httpStatus code =>
        simp only [runAttempts, hOut, hlast, if_neg, not_false_eq_true,
          List.length_cons] at hrec ⊢
        omega
      | timeout =>
        simp only [runAttempts, hOut, hlast, if_neg, not_false_eq_true,
          List.length_cons] at hrec ⊢
        omega
      | requestError m =>
        simp only [runAttempts, hOut, hlast, if_neg, not_false_eq_true,
          List.length_cons] at hrec ⊢
        omega

/-- C2: with `retries = N ≥ 1` attempts all failing with a non-2xx HTTP
status, a timeout or a transport error, `fetch_page` raises `FetchError`
exactly after the N-th attempt, carrying the non-empty cause string of the
final failure; an unexpected non-network error at attempt `k` raises
`FetchError` immediately at attempt `k` without exhausting the remaining
attempts. -/
theorem C2_fetch_retry_exhaustion :
    (∀ (N : Nat) (rl : Int) (rand : Nat → Nat) (outcomes : Nat → Outcome),
      1 ≤ N →
      (∀ i, 1 ≤ i → i ≤ N → networkFailure (outcomes i) = true) →
      (fetch_page N rl rand outcomes).result =
        .fetchError (failureCause (outcomes N)) ∧
      (fetch_page N rl rand outcomes).attemptsMade = N ∧
      failureCause (outcomes N) ≠ "") ∧
    (∀ (N : Nat) (rl : Int) (rand : Nat → Nat) (outcomes : Nat → Outcome)
        (k : Nat) (m : String), 1 ≤ k → k ≤ N →
      (∀ i, 1 ≤ i → i < k → networkFailure (outcomes i) = true) →
      outcomes k = .unexpected m →
      (fetch_page N rl rand outcomes).result =
        .fetchError ("Unexpected error: " ++ m) ∧
      (fetch_page N rl rand outcomes).attemptsMade = k) := by
  constructor
  · intro N rl rand outcomes hN hnet
    have h := runAttempts_network rl rand outcomes N N 1 (by omega)
      le_rfl hN (fun i hi₁ hi₂ => hnet i hi₁ hi₂)
    exact ⟨h.1, h.2, failureCause_ne_empty (hnet N hN le_rfl)⟩
  · intro N rl rand outcomes k m hk hkN hnet hu
    exact runAttempts_unexpected rl rand outcomes N k m N 1 (by omega)
      le_rfl hk hkN (fun i hi₁ hi₂ => hnet i hi₁ hi₂) hu

/-- C2 witness: with `retries = 1` against an endpoint always returning
HTTP 404, `FetchError` with cause `"HTTP error: 404"` is raised after
exactly one attempt; an unexpected error on the first of two attempts
aborts after one attempt. -/
theorem C2_fetch_retry_exhaustion_witness :
    ((fetch_page 1 3 (fun _ => 0) (fun _ => .httpStatus 404)).result =
        .fetchError "HTTP error: 404" ∧
      (fetch_page 1 3 (fun _ => 0) (fun _ => .httpStatus 404)).attemptsMade =
        1) ∧
    ((fetch_page 2 3 (fun _ => 0) (fun _ => .unexpected "boom")).result =
        .fetchError "Unexpected error: boom" ∧
      (fetch_page 2 3 (fun _ => 0)
        (fun _ => .unexpected "boom")).attemptsMade = 1) := by
  have h₁ := C2_fetch_retry_exhaustion.1 1 3 (fun _ => 0)
    (fun _ => .httpStatus 404) (by omega) (fun i _ _ => rfl)
  have h₂ := C2_fetch_retry_exhaustion.2 2 3 (fun _ => 0)
    (fun _ => .unexpected "boom") 1 "boom" (by omega) (by omega)
    (fun i hi₁ hi₂ => absurd hi₂ (by omega)) rfl
  refine ⟨⟨?_, h₁.2.1⟩, ⟨h₂.1, h₂.2⟩⟩
  rw [h₁.1]
  decide

/-! ## C9 — the randomized sleep window -/

/-- C9 counterexample: with the configured rate-limit delay 3, the run in
which the random source returns its minimum sleeps 2 seconds before the
first attempt, and 2 is strictly below the claimed lower bound 3. -/
theorem C9_claim_counterexample :
    (fetch_page 1 3 (fun _ => 0) (fun _ => .success "ok")).delays = [2] ∧
    ¬ ((3 : Int) ≤ 2) :=
  ⟨by decide, by decide⟩

/-- C9 (amended): before every fetch attempt, including the first,
`fetch_page` sleeps a randomized delay, and every such delay lies within
the window `[rate_limit - 1, rate_limit + 3]` around the configured
rate-limit delay (one sleep per attempt started). -/
theorem C9_sleep_window :
    ∀ (retries : Nat) (rl : Int) (rand : Nat → Nat)
      (outcomes : Nat → Outcome),
      (fetch_page retries rl rand outcomes).delays.length =
        (fetch_page retries rl rand outcomes).attemptsMade ∧
      ∀ d ∈ (fetch_page retries rl rand outcomes).delays,
        rl - 1 ≤ d ∧ d ≤ rl + 3 := by
  intro retries rl rand outcomes
  constructor
  · cases retries with
    | zero => rfl
    | succ n =>
      have h := runAttempts_delay_count rl rand outcomes (n + 1) (n + 1) 1
        (by omega) le_rfl (by omega)
      unfold fetch_page
      omega
  · intro d hd
    exact runAttempts_delay_bounds retries rl rand outcomes
      (List.range' 1 retries) d hd

/-- C9 witness: a two-attempt run against a timing-out endpoint pays one
in-window sleep per attempt; the concrete delay 3 is inside
`[3 - 1, 3 + 3]`. -/
theorem C9_sleep_window_witness :
    (fetch_page 2 3 (fun _ => 1) (fun _ => Outcome.timeout)).delays.length =
      (fetch_page 2 3 (fun _ => 1) (fun _ => Outcome.timeout)).attemptsMade ∧
    ((3 : Int) ∈ (fetch_page 2 3 (fun _ => 1)
        (fun _ => Outcome.timeout)).delays ∧
      (3 : Int) - 1 ≤ 3 ∧ (3 : Int) ≤ 3 + 3) := by
  refine ⟨(C9_sleep_window 2 3 (fun _ => 1) (fun _ => Outcome.timeout)).1,
    by decide, ?_, ?_⟩
  · exact ((C9_sleep_window 2 3 (fun _ => 1) (fun _ => Outcome.timeout)).2
      3 (by decide)).1
  · exact ((C9_sleep_window 2 3 (fun _ => 1) (fun _ => Outcome.timeout)).2
      3 (by decide)).2

/-! ## C3 — idempotent upsert of page records -/

theorem updateFirstRow_append (now : Nat) (a : PageArgs) :
    ∀ (l₁ : List PageRow) (r : PageRow) (l₂ : List PageRow),
      (∀ x ∈ l₁, x.url ≠ a.url) → r.url = a.url →
      updateFirstRow now a (l₁ ++ r :: l₂) = l₁ ++ updateRow now a r :: l₂ := by
  intro l₁
  induction l₁ with
  | nil =>
    intro r l₂ _ hr
    simp [updateFirstRow, hr]
  | cons x t ih =>
    intro r l₂ hl hr
    have hx : x.url ≠ a.url := hl x (List.mem_cons_self x t)
    show updateFirstRow now a (x :: (t ++ r :: l₂)) =
      x :: (t ++ updateRow now a r :: l₂)
    simp only [updateFirstRow]
    rw [if_neg hx, ih r l₂ (fun y hy => hl y (List.mem_cons_of_mem x hy)) hr]

theorem updateFirstRow_map_url (now : Nat) (a : PageArgs) :
    ∀ db : List PageRow,
      (updateFirstRow now a db).map PageRow.url = db.map PageRow.url := by
  intro db
  induction db with
  | nil => rfl
  | cons r t ih =>
    by_cases hr : r.url = a.url
    · simp [updateFirstRow, hr, updateRow]
    · simp [updateFirstRow, hr, ih]

theorem add_crawled_page_update (now : Nat) (a : PageArgs)
    (l₁ : List PageRow) (r : PageRow) (l₂ : List PageRow)
    (hl : ∀ x ∈ l₁, x.url ≠ a.url) (hr : r.url = a.url) :
    add_crawled_page now a (l₁ ++ r :: l₂) =
      l₁ ++ updateRow now a r :: l₂ := by
  have hany : (l₁ ++ r :: l₂).any (fun x => x.url = a.url) = true :=
    List.any_eq_true.mpr ⟨r, by simp, by simp [hr]⟩
  simp only [add_crawled_page, hany, if_pos]
  exact updateFirstRow_append now a l₁ r l₂ hl hr

theorem add_crawled_page_insert (now : Nat) (a : PageArgs)
    (db : List PageRow) (hdb : ∀ x ∈ db, x.url ≠ a.url) :
    add_crawled_page now a db = db ++ [newRow now a] := by
  have hany : (db.any (fun x => x.url = a.url)) = false := by
    rw [List.any_eq_false]
    intro x hx
    simp [hdb x hx]
  simp [add_crawled_page, hany]

theorem countP_eq_one_of_nodup_mem {l : List String} {u : String}
    (hn : l.Nodup) (hm : u ∈ l) : l.countP (fun v => v = u) = 1 := by
  induction l with
  | nil => simp at hm
  | cons b t ih =>
    rcases List.mem_cons.mp hm with h | h
    · subst h
      have hnot : u ∉ t := (List.nodup_cons.mp hn).1
      have hz : t.countP (fun v => v = u) = 0 :=
        List.countP_eq_zero.mpr (fun x hx => by
          simp only [decide_eq_true_eq]
          exact fun hxu => hnot (hxu ▸ hx))
      simp [List.countP_cons, hz]
    · have hne : b ≠ u := by
        intro hEq
        exact (List.nodup_cons.mp hn).1 (hEq ▸ h)
      have ht := ih (List.nodup_cons.mp hn).2 h
      simp [List.countP_cons, ht, hne]

/-- C3: `add_crawled_page` keyed by URL keeps exactly one row per URL —
updating the existing row in place when present (overwriting name, status
and sizes, overwriting the nullable image fields only when the new value
is non-null and preserving prior image data otherwise, refreshing
`updated_at` and leaving `crawled_at` untouched) and inserting a fresh row
with both timestamps set otherwise — so upserting the same URL twice
yields exactly one row whose `updated_at` strictly increases while
`crawled_at` keeps the insert-time value. -/
theorem C3_idempotent_upsert :
    (∀ (now : Nat) (a : PageArgs) (db : List PageRow), uniqueUrls db →
      uniqueUrls (add_crawled_page now a db) ∧
      (add_crawled_page now a db).countP (fun r => r.url = a.url) = 1) ∧
    (∀ (now : Nat) (a : PageArgs) (l₁ : List PageRow) (r : PageRow)
        (l₂ : List PageRow),
      (∀ x ∈ l₁, x.url ≠ a.url) → r.url = a.url →
      add_crawled_page now a (l₁ ++ r :: l₂) =
        l₁ ++ updateRow now a r :: l₂) ∧
    (∀ (now : Nat) (a : PageArgs) (db : List PageRow),
      (∀ x ∈ db, x.url ≠ a.url) →
      add_crawled_page now a db = db ++ [newRow now a]) ∧
    (∀ (now : Nat) (a : PageArgs) (r : PageRow),
      (updateRow now a r).url = r.url ∧
      (updateRow now a r).npc_name = a.npc_name ∧
      (updateRow now a r).status = a.status ∧
      (updateRow now a r).html_file_size = a.html_file_size ∧
      (updateRow now a r).image_size = a.image_size ∧
      (updateRow now a r).updated_at = now ∧
      (updateRow now a r).crawled_at = r.crawled_at ∧
      (a.image_url = none → (updateRow now a r).image_url = r.image_url) ∧
      ((updateRow now a r).image_url ≠ r.image_url → a.image_url ≠ none) ∧
      (a.image_filename = none →
        (updateRow now a r).image_filename = r.image_filename) ∧
      ((updateRow now a r).image_filename ≠ r.image_filename →
        a.image_filename ≠ none) ∧
      (a.image_status = none →
        (updateRow now a r).image_status = r.image_status) ∧
      ((updateRow now a r).image_status ≠ r.image_status →
        a.image_status ≠ none)) ∧
    (∀ (now : Nat) (a : PageArgs),
      (newRow now a).updated_at = now ∧ (newRow now a).crawled_at = now) ∧
    (∀ (t₁ t₂ : Nat) (a : PageArgs), t₁ < t₂ →
      add_crawled_page t₂ a (add_crawled_page t₁ a []) =
        [updateRow t₂ a (newRow t₁ a)] ∧
      (updateRow t₂ a (newRow t₁ a)).crawled_at = t₁ ∧
      (newRow t₁ a).updated_at <
        (updateRow t₂ a (newRow t₁ a)).updated_at) := by
  have hupd := add_crawled_page_update
  have hins := add_crawled_page_insert
  refine ⟨?_, hupd, hins, ?_, ?_, ?_⟩
  · intro now a db hu
    by_cases hany : db.any (fun x => x.url = a.url) = true
    · have hmap : (add_crawled_page now a db).map PageRow.url =
          db.map PageRow.url := by
        simp only [add_crawled_page, hany, if_pos]
        exact updateFirstRow_map_url now a db
      constructor
      · unfold uniqueUrls
        rw [hmap]
        exact hu
      · have hmem : a.url ∈ db.map PageRow.url := by
          rcases List.any_eq_true.mp hany with ⟨x, hx, hxe⟩
          exact List.mem_map.mpr ⟨x, hx, by simpa using hxe⟩
        calc (add_crawled_page now a db).countP (fun r => r.url = a.url)
            = ((add_crawled_page now a db).map PageRow.url).countP
                (fun v => v = a.url) := by
              simp only [List.countP_map]
              rfl
          _ = (db.map PageRow.url).countP (fun v => v = a.url) := by
              rw [hmap]
          _ = 1 := countP_eq_one_of_nodup_mem hu hmem
    · have hno : ∀ x ∈ db, x.url ≠ a.url := by
        intro x hx
        rcases List.any_eq_false.mp (Bool.not_eq_true _ ▸ hany) x hx with h
        simpa using h
      rw [hins now a db hno]
      constructor
      · unfold uniqueUrls
        rw [List.map_append]
        simp only [List.map_cons, List.map_nil]
        rw [List.nodup_append]
        refine ⟨hu, List.nodup_singleton _, ?_⟩
        intro v hv hv1
        have : v = a.url := by simpa [newRow] using hv1
        rcases List.mem_map.mp hv with ⟨x, hx, hxe⟩
        exact hno x hx (by rw [hxe, this])
      · rw [List.countP_append]
        have h0 : db.countP (fun r => r.url = a.url) = 0 :=
          List.countP_eq_zero.mpr (fun x hx => by simp [hno x hx])
        simp [h0, newRow]
  · intro now a r
    refine ⟨rfl, rfl, rfl, rfl, rfl, rfl, rfl, ?_, ?_, ?_, ?_, ?_, ?_⟩
    · intro h; simp [updateRow, h, truthy]
    · intro h hn
      apply h
      simp [updateRow, hn, truthy]
    · intro h; simp [updateRow, h, truthy]
    · intro h hn
      apply h
      simp [updateRow, hn, truthy]
    · intro h; simp [updateRow, h, truthy]
    · intro h hn
      apply h
      simp [updateRow, hn, truthy]
  · intro now a
    exact ⟨rfl, rfl⟩
  · intro t₁ t₂ a ht
    have h1 : add_crawled_page t₁ a [] = [newRow t₁ a] :=
      hins t₁ a [] (by simp)
    have h2 : add_crawled_page t₂ a [newRow t₁ a] =
        [updateRow t₂ a (newRow t₁ a)] := by
      have := hupd t₂ a [] (newRow t₁ a) [] (by simp) rfl
      simpa using this
    refine ⟨by rw [h1, h2], rfl, ?_⟩
    show (newRow t₁ a).updated_at < t₂
    show t₁ < t₂
    exact ht

/-- C3 witness: concrete upserts of the URL `"u"` — one row after insert,
update-in-place on the second upsert, image data preserved when the new
call carries none, and `updated_at` strictly increasing from clock 1 to
clock 2. -/
theorem C3_idempotent_upsert_witness :
    (uniqueUrls (add_crawled_page 1
        { url := "u", npc_name := "n", html_filename := "f" } []) ∧
      (add_crawled_page 1 { url := "u", npc_name := "n", html_filename := "f" }
        []).countP (fun r => r.url = "u") = 1) ∧
    (add_crawled_page 2 { url := "u", npc_name := "n", html_filename := "f" }
        ([] ++ newRow 1 { url := "u", npc_name := "n", html_filename := "f" }
          :: []) =
      [] ++ updateRow 2 { url := "u", npc_name := "n", html_filename := "f" }
        (newRow 1 { url := "u", npc_name := "n", html_filename := "f" })
          :: []) ∧
    (add_crawled_page 1 { url := "u", npc_name := "n", html_filename := "f" }
        [] =
      [] ++ [newRow 1 { url := "u", npc_name := "n", html_filename := "f" }]) ∧
    ((updateRow 2 { url := "u", npc_name := "n", html_filename := "f" }
        (newRow 1 { url := "u", npc_name := "n", html_filename := "f" })).image_url =
      (newRow 1 { url := "u", npc_name := "n", html_filename := "f" }).image_url) ∧
    ((newRow 1 { url := "u", npc_name := "n", html_filename := "f" }).updated_at <
      (updateRow 2 { url := "u", npc_name := "n", html_filename := "f" }
        (newRow 1 { url := "u", npc_name := "n", html_filename := "f" })).updated_at) := by
  refine ⟨C3_idempotent_upsert.1 1 _ [] (by simp [uniqueUrls]), ?_, ?_, ?_, ?_⟩
  · exact C3_idempotent_upsert.2.1 2 _ [] _ [] (by simp) rfl
  · exact C3_idempotent_upsert.2.2.1 1 _ [] (by simp)
  · exact (C3_idempotent_upsert.2.2.2.1 2 _ _).2.2.2.2.2.2.2.1 rfl
  · exact (C3_idempotent_upsert.2.2.2.2.2 1 2 _ (by omega)).2.2

/-! ## C8 — list-page parsing -/

/-- C8: the list-page parser is a total function of the parsed document
(BeautifulSoup raises on no input, so parsing never raises): with no
category container it returns an empty link list and a null next page —
even when a pagination anchor exists; with two or more containers its
links are exactly those drawn from the second container; and the next-page
URL equals the pagination anchor's href resolved against the base URL
whenever that anchor is present with a truthy href. -/
theorem C8_list_page_parse :
    (∀ base next,
      parse_npc_list_page base ⟨[], next⟩ =
        CrawlNPCListPageResult.mk [] none) ∧
    (∀ base d₀ d₁ rest next,
      (parse_npc_list_page base ⟨d₀ :: d₁ :: rest, next⟩).npc_urls =
        d₁.items.filterMap (liLink base)) ∧
    (∀ base divs h, divs ≠ [] → h ≠ "" →
      (parse_npc_list_page base ⟨divs, some ⟨some h⟩⟩).next_page_url =
        some (urljoin base h)) ∧
    (∀ base divs, divs ≠ [] →
      (parse_npc_list_page base ⟨divs, none⟩).next_page_url = none) := by
  refine ⟨fun base next => rfl, fun base d₀ d₁ rest next => rfl, ?_, ?_⟩
  · intro base divs h hdivs hh
    cases divs with
    | nil => exact absurd rfl hdivs
    | cons d rest =>
      cases rest with
      | nil => simp [parse_npc_list_page, hh]
      | cons d₁ rest' => simp [parse_npc_list_page, hh]
  · intro base divs hdivs
    cases divs with
    | nil => exact absurd rfl hdivs
    | cons d rest =>
      cases rest with
      | nil => rfl
      | cons d₁ rest' => rfl

/-- C8 witness: a two-container fixture whose second container links to
`/w/Y` (the first container's `/w/X` is ignored) with a pagination anchor,
and an empty fixture. -/
theorem C8_list_page_parse_witness :
    parse_npc_list_page "https://oldschool.runescape.wiki"
      ⟨[], some ⟨some "/w/N"⟩⟩ = CrawlNPCListPageResult.mk [] none ∧
    (parse_npc_list_page "https://oldschool.runescape.wiki"
        ⟨[⟨[⟨some ⟨some "/w/X"⟩⟩]⟩, ⟨[⟨some ⟨some "/w/Y"⟩⟩]⟩],
          some ⟨some "/w/N"⟩⟩).npc_urls =
      (CategoryDiv.mk [⟨some ⟨some "/w/Y"⟩⟩]).items.filterMap
        (liLink "https://oldschool.runescape.wiki") ∧
    (parse_npc_list_page "https://oldschool.runescape.wiki"
        ⟨[⟨[⟨some ⟨some "/w/X"⟩⟩]⟩, ⟨[⟨some ⟨some "/w/Y"⟩⟩]⟩],
          some ⟨some "/w/N"⟩⟩).next_page_url =
      some (urljoin "https://oldschool.runescape.wiki" "/w/N") ∧
    urljoin "https://oldschool.runescape.wiki" "/w/N" =
      "https://oldschool.runescape.wiki/w/N" := by
  refine ⟨C8_list_page_parse.1 "https://oldschool.runescape.wiki"
      (some ⟨some "/w/N"⟩),
    C8_list_page_parse.2.1 "https://oldschool.runescape.wiki"
      ⟨[⟨some ⟨some "/w/X"⟩⟩]⟩ ⟨[⟨some ⟨some "/w/Y"⟩⟩]⟩ []
      (some ⟨some "/w/N"⟩),
    C8_list_page_parse.2.2.1 "https://oldschool.runescape.wiki"
      [⟨[⟨some ⟨some "/w/X"⟩⟩]⟩, ⟨[⟨some ⟨some "/w/Y"⟩⟩]⟩] "/w/N"
      (by simp) (by simp), ?_⟩
  decide

/-! ## Branch evaluations of the per-page pipeline -/

theorem url_to_filename_ne_empty (url : String) (ext : Option String) :
    url_to_filename url ext ≠ "" := by
  unfold url_to_filename
  cases ext with
  | none =>
    by_cases h : takeUntil '#' (lastSlashComponent (urlparse_path url)) = ""
    · simp [h]
    · simp [h]
  | some e =>
    intro hEq
    have hlen := congrArg String.length hEq
    rw [String.length_append, String.length_append] at hlen
    have hdot : ("." : String).length = 1 := rfl
    have h0 : ("" : String).length = 0 := rfl
    omega

theorem crawl_npc_page_fetch_error (npc_url : String) (env : PageEnv)
    (s : SpiderState) (m : String)
    (hf : env.fetchResult = .error (.fetchError m)) :
    crawl_npc_page npc_url env s =
      (⟨false, false, some m⟩,
       ⟨mark_failed s.um npc_url m,
        add_crawled_page env.now
          { url := npc_url, npc_name := extract_npc_name_from_url npc_url,
            html_filename := url_to_filename npc_url (some "html"),
            status := "failed", html_file_size := 0 } s.db⟩) := by
  simp [crawl_npc_page, hf, handleExn, fetchErrorBranch]

theorem crawl_npc_page_fetch_other (npc_url : String) (env : PageEnv)
    (s : SpiderState) (m : String)
    (hf : env.fetchResult = .error (.other m)) :
    crawl_npc_page npc_url env s =
      (⟨false, false, some m⟩, ⟨mark_failed s.um npc_url m, s.db⟩) := by
  simp [crawl_npc_page, hf, handleExn, genericExnBranch]

theorem crawl_npc_page_save_other (npc_url : String) (env : PageEnv)
    (s : SpiderState) (m html : String)
    (hf : env.fetchResult = .ok html)
    (hs : env.saveResult = .error (.other m)) :
    crawl_npc_page npc_url env s =
      (⟨false, false, some m⟩, ⟨mark_failed s.um npc_url m, s.db⟩) := by
  simp [crawl_npc_page, hf, hs, handleExn, genericExnBranch]

theorem crawl_npc_page_no_image (npc_url : String) (env : PageEnv)
    (s : SpiderState) (html fp : String)
    (hf : env.fetchResult = .ok html)
    (hs : env.saveResult = .ok fp)
    (hni : (env.extract_found && truthy env.extract_image_url) = false) :
    crawl_npc_page npc_url env s =
      (⟨true, false, none⟩,
       ⟨mark_visited s.um npc_url,
        add_crawled_page env.now
          { url := npc_url, npc_name := extract_npc_name_from_url npc_url,
            html_filename := fp, status := "success",
            html_file_size := env.htmlFileSize,
            image_url := env.extract_image_url, image_filename := none,
            image_status := some "not_found", image_size := 0,
            has_image := false } s.db⟩) := by
  simp [crawl_npc_page, hf, hs, hni]

theorem crawl_npc_page_image_retry (npc_url : String) (env : PageEnv)
    (s : SpiderState) (html fp : String)
    (hf : env.fetchResult = .ok html)
    (hs : env.saveResult = .ok fp)
    (hfi : (env.extract_found && truthy env.extract_image_url) = true)
    (hdl : (env.downloadSuccess && truthy env.downloadImagePath) = false) :
    crawl_npc_page npc_url env s =
      (⟨true, false, none⟩,
       ⟨mark_visited (add_to_image_queue s.um (env.extract_image_url.getD "")
          (extract_npc_name_from_url npc_url) npc_url).2 npc_url,
        add_crawled_page env.now
          { url := npc_url, npc_name := extract_npc_name_from_url npc_url,
            html_filename := fp, status := "success",
            html_file_size := env.htmlFileSize,
            image_url := env.extract_image_url, image_filename := none,
            image_status := some "found", image_size := 0,
            has_image := false } s.db⟩) := by
  simp [crawl_npc_page, hf, hs, hfi, hdl]

theorem crawl_npc_page_image_ok (npc_url : String) (env : PageEnv)
    (s : SpiderState) (html fp : String)
    (hf : env.fetchResult = .ok html)
    (hs : env.saveResult = .ok fp)
    (hfi : (env.extract_found && truthy env.extract_image_url) = true)
    (hdl : (env.downloadSuccess && truthy env.downloadImagePath) = true) :
    crawl_npc_page npc_url env s =
      (⟨true, true, none⟩,
       ⟨mark_visited s.um npc_url,
        add_crawled_page env.now
          { url := npc_url, npc_name := extract_npc_name_from_url npc_url,
            html_filename := fp, status := "success",
            html_file_size := env.htmlFileSize,
            image_url := env.extract_image_url,
            image_filename :=
              some (url_to_filename (env.extract_image_url.getD "") none),
            image_status := some "success",
            image_size := env.imageFileSize,
            has_image := true } s.db⟩) := by
  simp [crawl_npc_page, hf, hs, hfi, hdl]

theorem crawl_npc_page_save_fetch_error (npc_url : String) (env : PageEnv)
    (s : SpiderState) (m html : String)
    (hf : env.fetchResult = .ok html)
    (hs : env.saveResult = .error (.fetchError m)) :
    crawl_npc_page npc_url env s =
      (⟨false, false, some m⟩,
       ⟨mark_failed s.um npc_url m,
        add_crawled_page env.now
          { url := npc_url, npc_name := extract_npc_name_from_url npc_url,
            html_filename := url_to_filename npc_url (some "html"),
            status := "failed", html_file_size := 0 } s.db⟩) := by
  simp [crawl_npc_page, hf, hs, handleExn, fetchErrorBranch]

/-! ## C4 — image soft-failure -/

/-- C4: when the detail page fetches and saves, an image URL is found, but
the image download fails, the pipeline still reports a successful crawl,
upserts a page record with status `"success"` and image status `"found"`
(has_image stays false), pushes the `{image_url, npc_name, page_url}`
entry onto the image retry queue, and writes no `"failed"` record for the
page. -/
theorem C4_image_soft_failure :
    ∀ (npc_url : String) (env : PageEnv) (s : SpiderState) (u html fp : String),
      env.fetchResult = Except.ok html →
      env.saveResult = Except.ok fp →
      env.extract_found = true →
      env.extract_image_url = some u →
      u ≠ "" →
      (env.downloadSuccess && truthy env.downloadImagePath) = false →
      (∀ r ∈ s.db, r.url ≠ npc_url) →
      (crawl_npc_page npc_url env s).1.html_success = true ∧
      ImageData.mk u (extract_npc_name_from_url npc_url) npc_url ∈
        (crawl_npc_page npc_url env s).2.um.image_queue ∧
      (∃ row ∈ (crawl_npc_page npc_url env s).2.db,
        row.url = npc_url ∧ row.status = "success" ∧
        row.image_status = some "found" ∧ row.has_image = false) ∧
      (∀ row ∈ (crawl_npc_page npc_url env s).2.db,
        row.url = npc_url → row.status = "success") := by
  intro npc_url env s u html fp hf hs hfound hiu hu hdl hfresh
  have hfi : (env.extract_found && truthy env.extract_image_url) = true := by
    simp [hfound, hiu, truthy, hu]
  have hev := crawl_npc_page_image_retry npc_url env s html fp hf hs hfi hdl
  rw [hev]
  have hdb := add_crawled_page_insert env.now
    { url := npc_url, npc_name := extract_npc_name_from_url npc_url,
      html_filename := fp, status := "success",
      html_file_size := env.htmlFileSize,
      image_url := env.extract_image_url, image_filename := none,
      image_status := some "found", image_size := 0,
      has_image := false } s.db (fun x hx => hfresh x hx)
  refine ⟨rfl, ?_, ?_, ?_⟩
  · simp only [mark_visited, add_to_image_queue, hiu, Option.getD_some]
    exact saddList_mem_self _ _
  · rw [hdb]
    refine ⟨newRow env.now
      { url := npc_url, npc_name := extract_npc_name_from_url npc_url,
        html_filename := fp, status := "success",
        html_file_size := env.htmlFileSize,
        image_url := env.extract_image_url, image_filename := none,
        image_status := some "found", image_size := 0, has_image := false },
      List.mem_append_right _ (by simp), rfl, rfl, ?_, rfl⟩
    simp [newRow, truthy]
  · intro row hrow hurl
    rw [hdb] at hrow
    rcases List.mem_append.mp hrow with h | h
    · exact absurd hurl (hfresh row h)
    · rw [List.mem_singleton.mp h]
      rfl

/-- C4 witness: a concrete environment with a found image URL whose
download fails, on a fresh state. -/
theorem C4_image_soft_failure_witness :
    (crawl_npc_page "https://w/w/A"
      { fetchResult := Except.ok "h", saveResult := Except.ok "A.html",
        htmlFileSize := 10, extract_found := true,
        extract_image_url := some "https://w/images/I.png",
        downloadSuccess := false, downloadImagePath := none,
        imageFileSize := 0, now := 1 }
      ⟨⟨[], [], [], []⟩, []⟩).1.html_success = true ∧
    ImageData.mk "https://w/images/I.png"
        (extract_npc_name_from_url "https://w/w/A") "https://w/w/A" ∈
      (crawl_npc_page "https://w/w/A"
        { fetchResult := Except.ok "h", saveResult := Except.ok "A.html",
          htmlFileSize := 10, extract_found := true,
          extract_image_url := some "https://w/images/I.png",
          downloadSuccess := false, downloadImagePath := none,
          imageFileSize := 0, now := 1 }
        ⟨⟨[], [], [], []⟩, []⟩).2.um.image_queue ∧
    (∃ row ∈ (crawl_npc_page "https://w/w/A"
        { fetchResult := Except.ok "h", saveResult := Except.ok "A.html",
          htmlFileSize := 10, extract_found := true,
          extract_image_url := some "https://w/images/I.png",
          downloadSuccess := false, downloadImagePath := none,
          imageFileSize := 0, now := 1 }
        ⟨⟨[], [], [], []⟩, []⟩).2.db,
      row.url = "https://w/w/A" ∧ row.status = "success" ∧
      row.image_status = some "found" ∧ row.has_image = false) ∧
    (∀ row ∈ (crawl_npc_page "https://w/w/A"
        { fetchResult := Except.ok "h", saveResult := Except.ok "A.html",
          htmlFileSize := 10, extract_found := true,
          extract_image_url := some "https://w/images/I.png",
          downloadSuccess := false, downloadImagePath := none,
          imageFileSize := 0, now := 1 }
        ⟨⟨[], [], [], []⟩, []⟩).2.db,
      row.url = "https://w/w/A" → row.status = "success") :=
  C4_image_soft_failure "https://w/w/A" _ _ "https://w/images/I.png" "h"
    "A.html" rfl rfl rfl rfl (by decide) rfl (by simp)

/-! ## C5 — the two failure branches of the pipeline -/

theorem find?_map_hset (k v : String) :
    ∀ (l : List (String × String)), l.any (fun p => p.1 = k) = true →
      (l.map (fun p => if p.1 = k then (k, v) else p)).find?
        (fun p => p.1 = k) = some (k, v) := by
  intro l
  induction l with
  | nil => intro h; simp at h
  | cons p t ih =>
    intro h
    by_cases hp : p.1 = k
    · simp only [List.map_cons, hp, if_pos]
      exact List.find?_cons_of_pos _ (by simp)
    · simp only [List.map_cons, hp, if_neg, not_false_eq_true]
      rw [List.find?_cons_of_neg _ (by simpa using hp)]
      apply ih
      simpa [hp] using h

theorem failedLookup_hsetList (l : List (String × String)) (k v : String) :
    failedLookup (hsetList l k v) k = some v := by
  unfold failedLookup hsetList
  by_cases h : l.any (fun p => p.1 = k) = true
  · rw [if_pos h, find?_map_hset k v l h]
    rfl
  · rw [if_neg h]
    have hl : l.find? (fun p => p.1 = k) = none :=
      List.find?_eq_none.mpr (fun p hp hpk => by
        apply h
        exact List.any_eq_true.mpr ⟨p, hp, hpk⟩)
    rw [List.find?_append, hl]
    simp

/-- C5: a `FetchError` while fetching the detail page persists a failed
page record of content size 0, marks the URL failed with the error text
and leaves the pending queue untouched; any other unexpected exception in
the pipeline (here: raised by the fetch or by the HTML save) marks the URL
failed with the exception text, leaves the queue untouched, and writes no
page record at all. -/
theorem C5_failure_branches :
    (∀ (npc_url : String) (env : PageEnv) (s : SpiderState) (m : String),
      env.fetchResult = .error (.fetchError m) →
      (∀ r ∈ s.db, r.url ≠ npc_url) →
      (crawl_npc_page npc_url env s).1.html_success = false ∧
      (∃ row ∈ (crawl_npc_page npc_url env s).2.db,
        row.url = npc_url ∧ row.status = "failed" ∧
        row.html_file_size = 0) ∧
      failedLookup (crawl_npc_page npc_url env s).2.um.failed npc_url =
        some m ∧
      (crawl_npc_page npc_url env s).2.um.queue = s.um.queue) ∧
    (∀ (npc_url : String) (env : PageEnv) (s : SpiderState) (m : String),
      env.fetchResult = .error (.other m) →
      (crawl_npc_page npc_url env s).1.html_success = false ∧
      (crawl_npc_page npc_url env s).2.db = s.db ∧
      failedLookup (crawl_npc_page npc_url env s).2.um.failed npc_url =
        some m ∧
      (crawl_npc_page npc_url env s).2.um.queue = s.um.queue) ∧
    (∀ (npc_url : String) (env : PageEnv) (s : SpiderState) (m html : String),
      env.fetchResult = .ok html →
      env.saveResult = .error (.other m) →
      (crawl_npc_page npc_url env s).1.html_success = false ∧
      (crawl_npc_page npc_url env s).2.db = s.db ∧
      failedLookup (crawl_npc_page npc_url env s).2.um.failed npc_url =
        some m ∧
      (crawl_npc_page npc_url env s).2.um.queue = s.um.queue) := by
  refine ⟨?_, ?_, ?_⟩
  · intro npc_url env s m hf hfresh
    rw [crawl_npc_page_fetch_error npc_url env s m hf]
    have hdb := add_crawled_page_insert env.now
      { url := npc_url, npc_name := extract_npc_name_from_url npc_url,
        html_filename := url_to_filename npc_url (some "html"),
        status := "failed", html_file_size := 0 } s.db
      (fun x hx => hfresh x hx)
    refine ⟨rfl, ?_, ?_, rfl⟩
    · rw [hdb]
      exact ⟨newRow env.now
        { url := npc_url, npc_name := extract_npc_name_from_url npc_url,
          html_filename := url_to_filename npc_url (some "html"),
          status := "failed", html_file_size := 0 },
        List.mem_append_right _ (by simp), rfl, rfl, rfl⟩
    · exact failedLookup_hsetList s.um.failed npc_url m
  · intro npc_url env s m hf
    rw [crawl_npc_page_fetch_other npc_url env s m hf]
    exact ⟨rfl, rfl, failedLookup_hsetList s.um.failed npc_url m, rfl⟩
  · intro npc_url env s m html hf hs
    rw [crawl_npc_page_save_other npc_url env s m html hf hs]
    exact ⟨rfl, rfl, failedLookup_hsetList s.um.failed npc_url m, rfl⟩

/-- C5 witness: a concrete `FetchError` run and a concrete
unexpected-exception run, both on a fresh state. -/
theorem C5_failure_branches_witness :
    ((crawl_npc_page "https://w/w/A"
        { fetchResult := Except.error (Exn.fetchError "HTTP error: 404"),
          saveResult := Except.ok "A.html", htmlFileSize := 0,
          extract_found := false, extract_image_url := none,
          downloadSuccess := false, downloadImagePath := none,
          imageFileSize := 0, now := 1 }
        ⟨⟨["q"], [], [], []⟩, []⟩).1.html_success = false ∧
      (∃ row ∈ (crawl_npc_page "https://w/w/A"
          { fetchResult := Except.error (Exn.fetchError "HTTP error: 404"),
            saveResult := Except.ok "A.html", htmlFileSize := 0,
            extract_found := false, extract_image_url := none,
            downloadSuccess := false, downloadImagePath := none,
            imageFileSize := 0, now := 1 }
          ⟨⟨["q"], [], [], []⟩, []⟩).2.db,
        row.url = "https://w/w/A" ∧ row.status = "failed" ∧
        row.html_file_size = 0) ∧
      failedLookup (crawl_npc_page "https://w/w/A"
          { fetchResult := Except.error (Exn.fetchError "HTTP error: 404"),
            saveResult := Except.ok "A.html", htmlFileSize := 0,
            extract_found := false, extract_image_url := none,
            downloadSuccess := false, downloadImagePath := none,
            imageFileSize := 0, now := 1 }
          ⟨⟨["q"], [], [], []⟩, []⟩).2.um.failed "https://w/w/A" =
        some "HTTP error: 404" ∧
      (crawl_npc_page "https://w/w/A"
          { fetchResult := Except.error (Exn.fetchError "HTTP error: 404"),
            saveResult := Except.ok "A.html", htmlFileSize := 0,
            extract_found := false, extract_image_url := none,
            downloadSuccess := false, downloadImagePath := none,
            imageFileSize := 0, now := 1 }
          ⟨⟨["q"], [], [], []⟩, []⟩).2.um.queue = ["q"]) ∧
    ((crawl_npc_page "https://w/w/A"
        { fetchResult := Except.ok "h",
          saveResult := Except.error (Exn.other "disk full"),
          htmlFileSize := 0, extract_found := false,
          extract_image_url := none, downloadSuccess := false,
          downloadImagePath := none, imageFileSize := 0, now := 1 }
        ⟨⟨["q"], [], [], []⟩, []⟩).1.html_success = false ∧
      (crawl_npc_page "https://w/w/A"
        { fetchResult := Except.ok "h",
          saveResult := Except.error (Exn.other "disk full"),
          htmlFileSize := 0, extract_found := false,
          extract_image_url := none, downloadSuccess := false,
          downloadImagePath := none, imageFileSize := 0, now := 1 }
        ⟨⟨["q"], [], [], []⟩, []⟩).2.db = [] ∧
      failedLookup (crawl_npc_page "https://w/w/A"
          { fetchResult := Except.ok "h",
            saveResult := Except.error (Exn.other "disk full"),
            htmlFileSize := 0, extract_found := false,
            extract_image_url := none, downloadSuccess := false,
            downloadImagePath := none, imageFileSize := 0, now := 1 }
          ⟨⟨["q"], [], [], []⟩, []⟩).2.um.failed "https://w/w/A" =
        some "disk full" ∧
      (crawl_npc_page "https://w/w/A"
          { fetchResult := Except.ok "h",
            saveResult := Except.error (Exn.other "disk full"),
            htmlFileSize := 0, extract_found := false,
            extract_image_url := none, downloadSuccess := false,
            downloadImagePath := none, imageFileSize := 0, now := 1 }
          ⟨⟨["q"], [], [], []⟩, []⟩).2.um.queue = ["q"]) :=
  ⟨C5_failure_branches.1 "https://w/w/A" _ ⟨⟨["q"], [], [], []⟩, []⟩
      "HTTP error: 404" rfl (by simp),
    C5_failure_branches.2.2 "https://w/w/A" _ ⟨⟨["q"], [], [], []⟩, []⟩
      "disk full" "h" rfl rfl⟩

/-! ## C6 — the has_image invariant -/

theorem mem_updateFirstRow (now : Nat) (a : PageArgs) :
    ∀ (db : List PageRow) (r : PageRow), r ∈ updateFirstRow now a db →
      r ∈ db ∨ ∃ r₀ ∈ db, r = updateRow now a r₀ := by
  intro db
  induction db with
  | nil => intro r hr; simp [updateFirstRow] at hr
  | cons x t ih =>
    intro r hr
    by_cases hx : x.url = a.url
    · simp only [updateFirstRow, hx, if_pos, List.mem_cons] at hr
      rcases hr with h | h
      · exact Or.inr ⟨x, List.mem_cons_self x t, h⟩
      · exact Or.inl (List.mem_cons_of_mem x h)
    · simp only [updateFirstRow, hx, if_neg, not_false_eq_true,
        List.mem_cons] at hr
      rcases hr with h | h
      · exact Or.inl (h ▸ List.mem_cons_self x t)
      · rcases ih r h with h' | ⟨r₀, hr₀, hEq⟩
        · exact Or.inl (List.mem_cons_of_mem x h')
        · exact Or.inr ⟨r₀, List.mem_cons_of_mem x hr₀, hEq⟩

theorem truthy_ne_none {o : Option String} (h : truthy o = true) : o ≠ none := by
  cases o with
  | none => simp [truthy] at h
  | some s => simp

theorem rowInv_updateRow (now : Nat) (a : PageArgs) (r₀ : PageRow)
    (ha : a.has_image = true →
      a.image_status = some "success" ∧ truthy a.image_filename = true)
    (_h₀ : rowImageInv r₀) : rowImageInv (updateRow now a r₀) := by
  intro h
  have hai : a.has_image = true := h
  obtain ⟨hst, hfn⟩ := ha hai
  constructor
  · simp [updateRow, hst, truthy]
  · simp only [updateRow, hfn, if_pos]
    exact truthy_ne_none hfn

theorem rowInv_newRow (now : Nat) (a : PageArgs)
    (ha : a.has_image = true →
      a.image_status = some "success" ∧ truthy a.image_filename = true) :
    rowImageInv (newRow now a) := by
  intro h
  have hai : a.has_image = true := h
  obtain ⟨hst, hfn⟩ := ha hai
  constructor
  · simp [newRow, hst, truthy]
  · simp only [newRow, hfn, if_pos]
    exact truthy_ne_none hfn

theorem add_crawled_page_rowInv (now : Nat) (a : PageArgs)
    (db : List PageRow)
    (ha : a.has_image = true →
      a.image_status = some "success" ∧ truthy a.image_filename = true)
    (hdb : ∀ r ∈ db, rowImageInv r) :
    ∀ r ∈ add_crawled_page now a db, rowImageInv r := by
  intro r hr
  unfold add_crawled_page at hr
  by_cases hany : db.any (fun x => x.url = a.url) = true
  · rw [if_pos hany] at hr
    rcases mem_updateFirstRow now a db r hr with h | ⟨r₀, hr₀, hEq⟩
    · exact hdb r h
    · exact hEq ▸ rowInv_updateRow now a r₀ ha (hdb r₀ hr₀)
  · rw [if_neg hany] at hr
    rcases List.mem_append.mp hr with h | h
    · exact hdb r h
    · exact (List.mem_singleton.mp h) ▸ rowInv_newRow now a ha

/-- C6: every page record written by the pipeline satisfies the invariant
has_image = true implies image_status = "success" with a non-null image
filename — the invariant is preserved by every `crawl_npc_page` call —
and the pipeline reports a downloaded image only in the branch where the
image was found and its download succeeded. -/
theorem C6_has_image_invariant :
    (∀ (npc_url : String) (env : PageEnv) (s : SpiderState),
      (∀ r ∈ s.db, rowImageInv r) →
      ∀ r ∈ (crawl_npc_page npc_url env s).2.db, rowImageInv r) ∧
    (∀ (npc_url : String) (env : PageEnv) (s : SpiderState),
      (crawl_npc_page npc_url env s).1.image_success = true →
      env.downloadSuccess = true ∧ truthy env.downloadImagePath = true ∧
      env.extract_found = true ∧ truthy env.extract_image_url = true) := by
  constructor
  · intro npc_url env s hdb
    cases hf : env.fetchResult with
    | error e =>
      cases e with
      | fetchError m =>
        rw [crawl_npc_page_fetch_error npc_url env s m hf]
        exact add_crawled_page_rowInv env.now _ s.db
          (fun h => by simp at h) hdb
      | other m =>
        rw [crawl_npc_page_fetch_other npc_url env s m hf]
        exact hdb
    | ok html =>
      cases hs : env.saveResult with
      | error e =>
        cases e with
        | fetchError m =>
          rw [crawl_npc_page_save_fetch_error npc_url env s m html hf hs]
          exact add_crawled_page_rowInv env.now _ s.db
            (fun h => by simp at h) hdb
        | other m =>
          rw [crawl_npc_page_save_other npc_url env s m html hf hs]
          exact hdb
      | ok fp =>
        by_cases hfi :
            (env.extract_found && truthy env.extract_image_url) = true
        · by_cases hdl :
              (env.downloadSuccess && truthy env.downloadImagePath) = true
          · rw [crawl_npc_page_image_ok npc_url env s html fp hf hs hfi hdl]
            apply add_crawled_page_rowInv env.now _ s.db _ hdb
            intro _
            constructor
            · rfl
            · simp [truthy, url_to_filename_ne_empty]
          · rw [crawl_npc_page_image_retry npc_url env s html fp hf hs hfi
              (Bool.not_eq_true _ ▸ hdl)]
            exact add_crawled_page_rowInv env.now _ s.db
              (fun h => by simp at h) hdb
        · rw [crawl_npc_page_no_image npc_url env s html fp hf hs
            (Bool.not_eq_true _ ▸ hfi)]
          exact add_crawled_page_rowInv env.now _ s.db
            (fun h => by simp at h) hdb
  · intro npc_url env s hsucc
    cases hf : env.fetchResult with
    | error e =>
      cases e with
      | fetchError m =>
        rw [crawl_npc_page_fetch_error npc_url env s m hf] at hsucc
        simp at hsucc
      | other m =>
        rw [crawl_npc_page_fetch_other npc_url env s m hf] at hsucc
        simp at hsucc
    | ok html =>
      cases hs : env.saveResult with
      | error e =>
        cases e with
        | fetchError m =>
          rw [crawl_npc_page_save_fetch_error npc_url env s m html hf hs]
            at hsucc
          simp at hsucc
        | other m =>
          rw [crawl_npc_page_save_other npc_url env s m html hf hs] at hsucc
          simp at hsucc
      | ok fp =>
        by_cases hfi :
            (env.extract_found && truthy env.extract_image_url) = true
        · by_cases hdl :
              (env.downloadSuccess && truthy env.downloadImagePath) = true
          · have h₁ : env.downloadSuccess = true ∧
                truthy env.downloadImagePath = true := by simpa using hdl
            have h₂ : env.extract_found = true ∧
                truthy env.extract_image_url = true := by simpa using hfi
            exact ⟨h₁.1, h₁.2, h₂.1, h₂.2⟩
          · rw [crawl_npc_page_image_retry npc_url env s html fp hf hs hfi
              (Bool.not_eq_true _ ▸ hdl)] at hsucc
            simp at hsucc
        · rw [crawl_npc_page_no_image npc_url env s html fp hf hs
            (Bool.not_eq_true _ ▸ hfi)] at hsucc
          simp at hsucc

/-- C6 witness: the invariant holds for every row written by a concrete
successful-download run on a fresh state, and that run's reported image
success pins the download-success branch. -/
theorem C6_has_image_invariant_witness :
    (∀ r ∈ (crawl_npc_page "https://w/w/A"
        { fetchResult := Except.ok "h", saveResult := Except.ok "A.html",
          htmlFileSize := 10, extract_found := true,
          extract_image_url := some "https://w/images/I.png",
          downloadSuccess := true, downloadImagePath := some "I.png",
          imageFileSize := 7, now := 1 }
        ⟨⟨[], [], [], []⟩, []⟩).2.db, rowImageInv r) ∧
    ((crawl_npc_page "https://w/w/A"
        { fetchResult := Except.ok "h", saveResult := Except.ok "A.html",
          htmlFileSize := 10, extract_found := true,
          extract_image_url := some "https://w/images/I.png",
          downloadSuccess := true, downloadImagePath := some "I.png",
          imageFileSize := 7, now := 1 }
        ⟨⟨[], [], [], []⟩, []⟩).1.image_success = true →
      ({ fetchResult := Except.ok "h", saveResult := Except.ok "A.html",
          htmlFileSize := 10, extract_found := true,
          extract_image_url := some "https://w/images/I.png",
          downloadSuccess := true, downloadImagePath := some "I.png",
          imageFileSize := 7, now := 1 } : PageEnv).downloadSuccess = true) :=
  ⟨C6_has_image_invariant.1 "https://w/w/A" _ ⟨⟨[], [], [], []⟩, []⟩
      (by simp),
    fun h => (C6_has_image_invariant.2 "https://w/w/A" _
      ⟨⟨[], [], [], []⟩, []⟩ h).1⟩

/-! ## C10 — crawl statistics identities -/

theorem crawlLoop_identities (envOf : String → PageEnv) (picks : Nat → Nat)
    (max_npcs : Option Nat) :
    ∀ (fuel : Nat) (acc : CrawlAllNPCsResult) (s : SpiderState),
      acc.total_npcs_crawled = acc.total_successful + acc.total_failed →
      acc.total_images_downloaded + acc.total_image_failures =
        acc.total_npcs_crawled →
      (crawlLoop envOf picks max_npcs fuel acc s).1.total_npcs_crawled =
        (crawlLoop envOf picks max_npcs fuel acc s).1.total_successful +
          (crawlLoop envOf picks max_npcs fuel acc s).1.total_failed ∧
      (crawlLoop envOf picks max_npcs fuel
            acc s).1.total_images_downloaded +
          (crawlLoop envOf picks max_npcs fuel acc s).1.total_image_failures =
        (crawlLoop envOf picks max_npcs fuel acc s).1.total_npcs_crawled := by
  intro fuel
  induction fuel with
  | zero => intro acc s h1 h2; exact ⟨h1, h2⟩
  | succ fuel ih =>
    intro acc s h1 h2
    unfold crawlLoop
    by_cases hmax : maxReached max_npcs acc.total_npcs_crawled = true
    · simp only [hmax, if_true]
      exact ⟨h1, h2⟩
    · have hm : maxReached max_npcs acc.total_npcs_crawled = false :=
        Bool.not_eq_true _ ▸ hmax
      simp only [hm, Bool.false_eq_true, if_false]
      rcases hnext : get_next_url s.um (picks fuel) with ⟨o, um'⟩
      cases o with
      | none =>
        simp only [hnext]
        exact ⟨h1, h2⟩
      | some url =>
        simp only [hnext]
        apply ih
        · cases hb :
            (crawl_npc_page url (envOf url) ⟨um', s.db⟩).1.html_success <;>
            simp [hb] <;> omega
        · cases hb :
            (crawl_npc_page url (envOf url) ⟨um', s.db⟩).1.image_success <;>
            simp [hb] <;> omega

/-- C10: for every run of `crawl_all_npcs`, the returned statistics
satisfy `total_npcs_crawled = total_successful + total_failed` and
`total_images_downloaded + total_image_failures = total_npcs_crawled` —
every processed page, including pages without an image and pages whose
fetch failed, counts toward exactly one of the two image counters. -/
theorem C10_stats_identities :
    ∀ (envOf : String → PageEnv) (picks : Nat → Nat) (max_npcs : Option Nat)
      (s : SpiderState),
      (crawl_all_npcs envOf picks max_npcs s).1.total_npcs_crawled =
        (crawl_all_npcs envOf picks max_npcs s).1.total_successful +
          (crawl_all_npcs envOf picks max_npcs s).1.total_failed ∧
      (crawl_all_npcs envOf picks max_npcs s).1.total_images_downloaded +
          (crawl_all_npcs envOf picks
            max_npcs s).1.total_image_failures =
        (crawl_all_npcs envOf picks max_npcs s).1.total_npcs_crawled :=
  fun envOf picks max_npcs s =>
    crawlLoop_identities envOf picks max_npcs s.um.queue.length
      ⟨0, 0, 0, 0, 0⟩ s rfl rfl

end Scraper
